import Mathlib

/-!
Shallow embedding of the Network component of the Cranium library
(src/src/network.h).  Matrix entries are modelled as rationals (the C
code uses `double`; the hexadecimal text serialization is exact, so an
exact numeric type is faithful for round-trip and structural claims).
The external collaborators (matrix.h, layer.h, function.h) are not part
of the repository snapshot; where their behaviour matters it is modelled
from the specification and marked as such.
-/

namespace Cranium

/-- Activation catalog.  Modelled from the spec: function.h is external;
the spec fixes the catalog {sigmoid, relu, tanH, softmax}, each with a
stable textual name used by the serializer. -/
inductive Activation where
  | sigmoid
  | relu
  | tanH
  | softmax
deriving DecidableEq

/-- Layer role.  Modelled from the spec: one of {INPUT, HIDDEN, OUTPUT}. -/
inductive LayerType where
  | INPUT
  | HIDDEN
  | OUTPUT
deriving DecidableEq

/-- Dense 2-D numeric buffer.  Modelled from the spec: matrix.h is
external; a Matrix carries row/column counts and its entries.  Entries
are total functions on indices; only indices below `rows`/`cols` are
meaningful. -/
structure Matrix where
  rows : Nat
  cols : Nat
  data : Nat → Nat → ℚ

def zeroMatrix (r c : Nat) : Matrix :=
  { rows := r, cols := c, data := fun _ _ => 0 }

instance : Inhabited Matrix := ⟨zeroMatrix 0 0⟩

/-- Modelled from the spec: standard matrix product, result is
`A.rows x B.cols`, entry (i,j) sums A.data i k * B.data k j over k < A.cols. -/
def multiply (A B : Matrix) : Matrix :=
  { rows := A.rows, cols := B.cols,
    data := fun i j => ∑ k in Finset.range A.cols, A.data i k * B.data k j }

/-- Modelled from the spec: broadcasts a 1 x cols bias row over all rows. -/
def addToEachRow (M biasRow : Matrix) : Matrix :=
  { rows := M.rows, cols := M.cols,
    data := fun i j => M.data i j + biasRow.data 0 j }

/-- Modelled from the spec: deep clone; in a pure value model the clone
is the value itself. -/
def copy (M : Matrix) : Matrix := M

/-- One pipeline stage.  Modelled from the spec: layer.h is external; a
Layer holds a role, a size, an activation (None for INPUT), and its
currently stored input buffer. -/
structure Layer where
  type : LayerType
  size : Nat
  activation : Option Activation
  input : Matrix

def defaultLayer : Layer :=
  { type := LayerType.INPUT, size := 0, activation := none, input := zeroMatrix 0 0 }

instance : Inhabited Layer := ⟨defaultLayer⟩

/-- Learned parameters linking two adjacent layers.  The C struct also
holds `from`/`to` layer pointers; in this positional model connection i
always links layers i and i+1, as established by `createNetwork`. -/
structure Connection where
  weights : Matrix
  bias : Matrix

def defaultConnection : Connection :=
  { weights := zeroMatrix 0 0, bias := zeroMatrix 0 0 }

instance : Inhabited Connection := ⟨defaultConnection⟩

/-- The Network struct of network.h. -/
structure Network where
  numLayers : Nat
  layers : List Layer
  numConnections : Nat
  connections : List Connection

/-- Modelled from the spec: layer.h is external.  The spec requires every
layer size to be strictly positive, with violation a fatal precondition
failure (abort, modelled as `none`), and each layer to hold an input
buffer whose column count equals its size (modelled as a 1 x size zero
matrix before the first forward pass). -/
def createLayer (t : LayerType) (size : Int) (activation : Option Activation) :
    Option Layer :=
  if 0 < size then
    some { type := t, size := size.toNat, activation := activation,
           input := zeroMatrix 1 size.toNat }
  else none

/-- Modelled from the spec: connection between layers `f` and `t` holds a
weight matrix of shape `[f.size x t.size]` and a bias of shape `[1 x t.size]`. -/
def createConnection (f t : Layer) : Connection :=
  { weights := zeroMatrix f.size t.size, bias := zeroMatrix 1 t.size }

/-- Modelled from the spec: parameter initialization policy is delegated
to the external Layer/Connection module; modelled as retaining the zero
fill (the concrete values never matter for the claims below). -/
def initializeConnection (c : Connection) : Connection := c

/-- Modelled from the spec: applies the layer's activation to its stored
input in place.  The activation semantics themselves live in the external
function.h, so the element/row transform `F` is a parameter of the
embedding; an INPUT layer (activation None) is never activated. -/
def activateLayer (F : Activation → Matrix → Matrix) (l : Layer) : Layer :=
  match l.activation with
  | some a => { l with input := F a l.input }
  | none => l

/-- Abort-on-failure sequential map, mirroring the C loops that fill an
array and abort on any failed precondition. -/
def mapOption (f : α → Option β) : List α → Option (List β)
  | [] => some []
  | a :: as => (f a).bind fun b => (mapOption f as).map fun bs => b :: bs

/-- createNetwork of network.h.  The assert on line 55 is the outer
guard; the loop over `i < numLayers` creates layers[0] as INPUT,
layers[numLayers-1] as OUTPUT and the interior as HIDDEN with
hiddenSizes[i-1] / hiddenActivations[i-1], which for
numLayers = 2 + numHiddenLayers is exactly
[INPUT] ++ hidden(0..numHiddenLayers) ++ [OUTPUT]; then connections[i]
links layers[i] to layers[i+1] and is initialized. -/
def createNetwork (numFeatures numHiddenLayers : Int) (hiddenSizes : List Int)
    (hiddenActivations : List Activation) (numClasses : Int)
    (outputActivation : Activation) : Option Network :=
  if 0 < numFeatures ∧ 0 ≤ numHiddenLayers ∧ 0 < numClasses then
    let nh := numHiddenLayers.toNat
    let numLayers := 2 + nh
    (createLayer LayerType.INPUT numFeatures none).bind fun inputLayer =>
      (mapOption (fun i => createLayer LayerType.HIDDEN (hiddenSizes.getD i 0)
          (some (hiddenActivations.getD i Activation.softmax))) (List.range nh)).bind
        fun hiddenLayers =>
          (createLayer LayerType.OUTPUT numClasses (some outputActivation)).bind
            fun outputLayer =>
              let layers := inputLayer :: (hiddenLayers ++ [outputLayer])
              let connections := (List.range (numLayers - 1)).map fun i =>
                initializeConnection (createConnection
                  (layers.getD i defaultLayer) (layers.getD (i + 1) defaultLayer))
              some { numLayers := numLayers, layers := layers,
                     numConnections := numLayers - 1, connections := connections }
  else none

/-- One iteration of the forwardPass loop: tmp = layers[i].input * weights,
tmp2 = addToEachRow(tmp, bias), installed as the next layer's input,
which is then activated in place. -/
def connStep (F : Activation → Matrix → Matrix) (cur : Matrix)
    (c : Connection) (l : Layer) : Layer :=
  activateLayer F { l with input := addToEachRow (multiply cur c.weights) c.bias }

/-- The forwardPass loop over connections, walking the tail of the layer
list positionally (connections[i].to is layers[i+1] for constructed
networks); `cur` is the current layers[i].input. -/
def forwardLayers (F : Activation → Matrix → Matrix) :
    Matrix → List (Connection × Layer) → List Layer
  | _, [] => []
  | cur, (c, l) :: rest =>
    let l2 := connStep F cur c l
    l2 :: forwardLayers F l2.input rest

/-- forwardPass of network.h.  The assert on line 89 compares the batch
column count with the INPUT layer's stored input column count; failure
aborts (modelled as `none`).  On success the INPUT layer receives a copy
of the batch and every downstream layer a fresh activated buffer. -/
def forwardPass (F : Activation → Matrix → Matrix) (network : Network)
    (input : Matrix) : Option Network :=
  match network.layers with
  | [] => none
  | l0 :: rest =>
    if input.cols = l0.input.cols then
      some { network with
             layers := { l0 with input := copy input } ::
               forwardLayers F input (network.connections.zip rest) }
    else none

/-- crossEntropyLoss of network.h.  `log` and `dblMin` stand for the C
library natural logarithm and the DBL_MIN constant (external).  The two
asserts on lines 106-107 are the `none` branch.  The loops accumulate
total_err row by row and, when a network is supplied, reg_err over every
weight entry of every connection; the result is
(-1/actual.rows) * total_err + regularizationStrength * 0.5 * reg_err.
The function reads its arguments and mutates nothing (it is a pure
value-level function in this embedding, as in the C code). -/
def crossEntropyLoss (log : ℚ → ℚ) (dblMin : ℚ) (network : Option Network)
    (prediction actual : Matrix) (regularizationStrength : ℚ) : Option ℚ :=
  if prediction.rows = actual.rows ∧ prediction.cols = actual.cols then
    some ((-1 / (actual.rows : ℚ)) *
      (∑ i in Finset.range prediction.rows,
        ∑ j in Finset.range prediction.cols,
          actual.data i j * log (max dblMin (prediction.data i j))) +
      regularizationStrength * (1 / 2) *
        (match network with
         | some net => ∑ k in Finset.range net.numConnections,
             ∑ i in Finset.range
               ((net.connections.getD k defaultConnection).weights.rows),
               ∑ j in Finset.range
                 ((net.connections.getD k defaultConnection).weights.cols),
                 (net.connections.getD k defaultConnection).weights.data i j *
                   (net.connections.getD k defaultConnection).weights.data i j
         | none => 0))
  else none

/-- The expression network->layers[network->numLayers - 1], the OUTPUT
layer for any constructed network. -/
def outputLayerOf (network : Network) : Layer :=
  network.layers.getD (network.numLayers - 1) defaultLayer

/-- predict of network.h: for each row of the OUTPUT layer's stored
input, scan columns 1..size-1 keeping the index of the strictly greatest
entry seen so far, starting from index 0. -/
def predict (network : Network) : List Nat :=
  (List.range (outputLayerOf network).input.rows).map fun i =>
    (List.range' 1 ((outputLayerOf network).size - 1)).foldl
      (fun max j =>
        if (outputLayerOf network).input.data i j
            > (outputLayerOf network).input.data i max then j
        else max) 0

/-- accuracy of network.h.  Asserts data.rows == classes.rows and
data.cols == the OUTPUT layer's size (lines 148-149), then runs a fresh
forward pass (whose own assert may also abort), predicts, counts the
rows whose predicted column holds a 1 in `classes`, and divides by
classes.rows. -/
def accuracy (F : Activation → Matrix → Matrix) (network : Network)
    (data classes : Matrix) : Option ℚ :=
  if data.rows = classes.rows ∧ data.cols = (outputLayerOf network).size then
    (forwardPass F network data).map fun net2 =>
      ((List.range data.rows).foldl
        (fun acc i =>
          if classes.data i ((predict net2).getD i 0) = 1 then acc + 1 else acc)
        (0 : ℚ)) / (classes.rows : ℚ)
  else none

/-!  Serialization.  The file is modelled as a list of lines; a line is
either an integer token (written with %d), a name token (an activation
name), or a numeric value token (written with %la — the hexadecimal
float form is exact, so the value itself is carried). -/

inductive Line where
  | num (n : Nat)
  | name (s : String)
  | val (q : ℚ)
deriving DecidableEq

/-- The name saveNetwork writes for a hidden layer's activation (lines
191-199): "sigmoid" and "relu" are matched explicitly, everything else is
written as "tanH". -/
def hiddenActName (a : Option Activation) : String :=
  if a = some Activation.sigmoid then "sigmoid"
  else if a = some Activation.relu then "relu"
  else "tanH"

def saveSizeLines (network : Network) : List Line :=
  (List.range network.numLayers).map fun i =>
    Line.num ((network.layers.getD i defaultLayer).size)

def saveHiddenLines (network : Network) : List Line :=
  (List.range (network.numLayers - 2)).map fun i =>
    Line.name (hiddenActName ((network.layers.getD (1 + i) defaultLayer).activation))

/-- Lines 202-205: the output activation's name is written only when it
is softmax. -/
def saveOutputLines (network : Network) : List Line :=
  if (outputLayerOf network).activation = some Activation.softmax then
    [Line.name "softmax"]
  else []

def saveWeightLines (network : Network) : List Line :=
  (List.range network.numConnections).flatMap fun k =>
    (List.range ((network.connections.getD k defaultConnection).weights.rows)).flatMap
      fun i =>
        (List.range ((network.connections.getD k defaultConnection).weights.cols)).map
          fun j =>
            Line.val ((network.connections.getD k defaultConnection).weights.data i j)

def saveBiasLines (network : Network) : List Line :=
  (List.range network.numConnections).flatMap fun k =>
    (List.range ((network.connections.getD k defaultConnection).bias.cols)).map
      fun i =>
        Line.val ((network.connections.getD k defaultConnection).bias.data 0 i)

/-- saveNetwork of network.h: numLayers, then layer sizes, then hidden
activation names, then (conditionally) the output activation name, then
all weights in row-major order per connection, then all biases. -/
def saveNetwork (network : Network) : List Line :=
  Line.num network.numLayers ::
    (saveSizeLines network ++ (saveHiddenLines network ++ (saveOutputLines network ++
      (saveWeightLines network ++ saveBiasLines network))))

/-- sscanf("%d") from a line: an integer token yields its value; on any
other token the parse fails and the (uninitialized or zeroed) variable is
modelled as 0.  Only the integer case is reachable from files written by
saveNetwork. -/
def parseNumLine : Line → Nat
  | Line.num n => n
  | _ => 0

/-- Lines 250-265 of readNetwork: the token read with %s is compared
against "sigmoid", "relu", "tanH"; anything else (including a numeric
token) becomes softmax. -/
def parseActLine : Line → Activation
  | Line.name s =>
    if s = "sigmoid" then Activation.sigmoid
    else if s = "relu" then Activation.relu
    else if s = "tanH" then Activation.tanH
    else Activation.softmax
  | _ => Activation.softmax

/-- sscanf("%la") into an already-initialized slot: a value token
overwrites the slot; a failed parse (non-value token, or fgets at end of
file leaving the zeroed buffer) leaves the slot at its initialized value,
which is 0 in this model. -/
def parseValLine : Option Line → ℚ
  | some (Line.val q) => q
  | _ => 0

/-- Reading rows*cols value lines starting at `ofs` in row-major order
into a rows x cols matrix. -/
def fillMatrix (ls : List Line) (ofs rows cols : Nat) : Matrix :=
  { rows := rows, cols := cols,
    data := fun i j => parseValLine (ls.get? (ofs + i * cols + j)) }

/-- The weight-filling loop of readNetwork (lines 290-299): connection
after connection, each consuming weights.rows * weights.cols lines.
Returns the rebuilt connections and the next stream position. -/
def fillWeights (ls : List Line) : Nat → List Connection → List Connection × Nat
  | ofs, [] => ([], ofs)
  | ofs, c :: rest =>
    let w := fillMatrix ls ofs c.weights.rows c.weights.cols
    let res := fillWeights ls (ofs + c.weights.rows * c.weights.cols) rest
    ({ c with weights := w } :: res.1, res.2)

/-- The bias-filling loop of readNetwork (lines 302-309): connection
after connection, each consuming bias.cols lines into row 0. -/
def fillBiases (ls : List Line) : Nat → List Connection → List Connection × Nat
  | ofs, [] => ([], ofs)
  | ofs, c :: rest =>
    let b := fillMatrix ls ofs 1 c.bias.cols
    let res := fillBiases ls (ofs + c.bias.cols) rest
    ({ c with bias := b } :: res.1, res.2)

/-!  readNetwork of network.h.  The reads are strictly sequential and of
fixed counts, so the stream is modelled by absolute positions: line 0 is
numLayers, lines 1..numLayers the sizes, the following numLayers-1 lines
the activation tokens (always numLayers-1 of them, whether or not the
writer emitted an output-activation line), and everything from position
1 + numLayers + (numLayers-1) on feeds the weight and bias loops.  Each
sequential phase of the C function is a named definition. -/

/-- Lines 234-237: the first line, parsed with %d. -/
def readNumLayers (ls : List Line) : Nat :=
  parseNumLine (ls.getD 0 (Line.name ""))

/-- Lines 240-245: the next numLayers lines, parsed with %d. -/
def readLayerSizes (ls : List Line) : List Nat :=
  (List.range (readNumLayers ls)).map fun i =>
    parseNumLine (ls.getD (1 + i) (Line.name ""))

/-- Lines 248-266: the next numLayers-1 lines, parsed as activation
tokens. -/
def readFuncs (ls : List Line) : List Activation :=
  (List.range (readNumLayers ls - 1)).map fun i =>
    parseActLine (ls.getD (1 + readNumLayers ls + i) (Line.name ""))

/-- Lines 268-287: reconstruction through the constructor, with
inputSize = layerSizes[0], outputSize = layerSizes[numLayers-1],
numHiddenLayers = numLayers - 2, outputFunc = funcs[numLayers-2], and,
when hidden layers exist, the interior sizes and the first
numHiddenLayers parsed activations. -/
def readNet0 (ls : List Line) : Option Network :=
  if 0 < readNumLayers ls - 2 then
    createNetwork ((readLayerSizes ls).getD 0 0 : Nat)
      ((readNumLayers ls - 2 : Nat) : Int)
      ((List.range (readNumLayers ls - 2)).map fun i =>
        (((readLayerSizes ls).getD (1 + i) 0 : Nat) : Int))
      ((List.range (readNumLayers ls - 2)).map fun i =>
        (readFuncs ls).getD i Activation.softmax)
      ((readLayerSizes ls).getD (readNumLayers ls - 1) 0 : Nat)
      ((readFuncs ls).getD (readNumLayers ls - 2) Activation.softmax)
  else
    createNetwork ((readLayerSizes ls).getD 0 0 : Nat) 0 [] []
      ((readLayerSizes ls).getD (readNumLayers ls - 1) 0 : Nat)
      ((readFuncs ls).getD (readNumLayers ls - 2) Activation.softmax)

/-- readNetwork of network.h: reconstruct the structure, then stream the
remaining lines into the weights (lines 290-299) and biases (302-309). -/
def readNetwork (ls : List Line) : Option Network :=
  (readNet0 ls).map fun net =>
    { net with connections :=
        (fillBiases ls
          (fillWeights ls (1 + readNumLayers ls + (readNumLayers ls - 1))
            net.connections).2
          (fillWeights ls (1 + readNumLayers ls + (readNumLayers ls - 1))
            net.connections).1).1 }

/-- The structural invariants of §3 of the spec, as guaranteed by
`createNetwork`: consistent counts, positive sizes, input buffers of
width equal to the layer size, and connection shapes matching the two
linked layers. -/
def NetworkValid (net : Network) : Prop :=
  2 ≤ net.numLayers ∧
  net.layers.length = net.numLayers ∧
  net.numConnections = net.numLayers - 1 ∧
  net.connections.length = net.numConnections ∧
  (∀ l ∈ net.layers, 0 < l.size ∧ l.input.cols = l.size) ∧
  (∀ i, i < net.numConnections →
    (net.connections.getD i defaultConnection).weights.rows
        = (net.layers.getD i defaultLayer).size ∧
    (net.connections.getD i defaultConnection).weights.cols
        = (net.layers.getD (i + 1) defaultLayer).size ∧
    (net.connections.getD i defaultConnection).bias.cols
        = (net.layers.getD (i + 1) defaultLayer).size)

/-!  Generic list helpers used throughout the development. -/

theorem getD_range_map {β : Type} (f : Nat → β) (n i : Nat) (d : β) :
    (((List.range n).map f).getD i d) = if i < n then f i else d := by
  rw [List.getD_eq_getElem?_getD, List.getElem?_map]
  by_cases h : i < n
  · rw [List.getElem?_range h]
    simp [h]
  · rw [List.getElem?_eq_none (by simpa using Nat.le_of_not_lt h)]
    simp [h]

theorem length_flatMap_range {β : Type} (f : Nat → List β) (n : Nat) :
    ((List.range n).flatMap f).length = ∑ m in Finset.range n, (f m).length := by
  induction n with
  | zero => simp
  | succ k ih =>
    rw [List.range_succ, List.flatMap_append, List.length_append, ih,
      Finset.sum_range_succ]
    simp

theorem getElem?_flatMap_range {β : Type} (f : Nat → List β) (n k r : Nat)
    (hk : k < n) (hr : r < (f k).length) :
    ((List.range n).flatMap f)[(∑ m in Finset.range k, (f m).length) + r]?
      = (f k)[r]? := by
  induction n with
  | zero => omega
  | succ t ih =>
    rw [List.range_succ, List.flatMap_append]
    rcases Nat.lt_or_ge k t with hkt | hkt
    · have hlt : (∑ m in Finset.range k, (f m).length) + r
          < ((List.range t).flatMap f).length := by
        rw [length_flatMap_range]
        calc (∑ m in Finset.range k, (f m).length) + r
            < ∑ m in Finset.range (k + 1), (f m).length := by
              rw [Finset.sum_range_succ]; omega
          _ ≤ ∑ m in Finset.range t, (f m).length := by
              apply Finset.sum_le_sum_of_subset
              intro x hx
              simp only [Finset.mem_range] at *
              omega
      rw [List.getElem?_append, if_pos hlt]
      exact ih hkt
    · have hk2 : k = t := by omega
      subst hk2
      have hlen : ((List.range k).flatMap f).length
          = ∑ m in Finset.range k, (f m).length := length_flatMap_range f k
      have hge : ((List.range k).flatMap f).length
          ≤ (∑ m in Finset.range k, (f m).length) + r := by omega
      rw [List.getElem?_append_right hge, hlen]
      simp only [List.flatMap_cons, List.flatMap_nil, List.append_nil]
      congr 1
      omega

theorem mapOption_eq_some_map {α β : Type} (f : α → Option β) (g : α → β)
    (l : List α) (h : ∀ a ∈ l, f a = some (g a)) :
    mapOption f l = some (l.map g) := by
  induction l with
  | nil => rfl
  | cons a as ih =>
    have ha := h a (by simp)
    have has : ∀ x ∈ as, f x = some (g x) := fun x hx => h x (by simp [hx])
    simp [mapOption, ha, ih has]

theorem mapOption_isSome_iff {α β : Type} (f : α → Option β) (l : List α) :
    (mapOption f l).isSome ↔ ∀ a ∈ l, (f a).isSome := by
  induction l with
  | nil => simp [mapOption]
  | cons a as ih =>
    cases hfa : f a with
    | none => simp [mapOption, hfa, List.forall_mem_cons]
    | some b =>
      cases hma : mapOption f as with
      | none =>
        have h2 : ¬ (mapOption f as).isSome := by simp [hma]
        simp only [mapOption, hfa, hma, Option.some_bind, Option.map_none',
          Option.isSome_none, Bool.false_eq_true, false_iff, List.forall_mem_cons,
          not_and]
        intro _ hall
        exact h2 (ih.mpr hall)
      | some out =>
        simp only [mapOption, hfa, hma, Option.some_bind, Option.map_some',
          Option.isSome_some, true_iff, List.forall_mem_cons]
        refine ⟨by simp, fun x hx => ?_⟩
        exact ih.mp (by simp [hma]) x hx

/-!  Explicit form of the network built by `createNetwork`, used to
characterize it. -/

def mkInputLayer (numFeatures : Int) : Layer :=
  { type := LayerType.INPUT, size := numFeatures.toNat, activation := none,
    input := zeroMatrix 1 numFeatures.toNat }

def mkHiddenLayer (hiddenSizes : List Int) (hiddenActivations : List Activation)
    (i : Nat) : Layer :=
  { type := LayerType.HIDDEN, size := (hiddenSizes.getD i 0).toNat,
    activation := some (hiddenActivations.getD i Activation.softmax),
    input := zeroMatrix 1 (hiddenSizes.getD i 0).toNat }

def mkOutputLayer (numClasses : Int) (outputActivation : Activation) : Layer :=
  { type := LayerType.OUTPUT, size := numClasses.toNat,
    activation := some outputActivation,
    input := zeroMatrix 1 numClasses.toNat }

def mkLayers (numFeatures : Int) (hiddenSizes : List Int)
    (hiddenActivations : List Activation) (numClasses : Int)
    (outputActivation : Activation) (n : Nat) : List Layer :=
  mkInputLayer numFeatures ::
    ((List.range n).map (mkHiddenLayer hiddenSizes hiddenActivations) ++
      [mkOutputLayer numClasses outputActivation])

def mkNetwork (numFeatures : Int) (hiddenSizes : List Int)
    (hiddenActivations : List Activation) (numClasses : Int)
    (outputActivation : Activation) (n : Nat) : Network :=
  let layers := mkLayers numFeatures hiddenSizes hiddenActivations numClasses
    outputActivation n
  { numLayers := 2 + n, layers := layers,
    numConnections := 2 + n - 1,
    connections := (List.range (2 + n - 1)).map fun i =>
      initializeConnection (createConnection
        (layers.getD i defaultLayer) (layers.getD (i + 1) defaultLayer)) }

theorem createNetwork_eq (numFeatures numHiddenLayers : Int)
    (hiddenSizes : List Int) (hiddenActivations : List Activation)
    (numClasses : Int) (outputActivation : Activation)
    (hnf : 0 < numFeatures) (hnh : 0 ≤ numHiddenLayers) (hnc : 0 < numClasses)
    (hsz : ∀ i < numHiddenLayers.toNat, 0 < hiddenSizes.getD i 0) :
    createNetwork numFeatures numHiddenLayers hiddenSizes hiddenActivations
        numClasses outputActivation
      = some (mkNetwork numFeatures hiddenSizes hiddenActivations numClasses
          outputActivation numHiddenLayers.toNat) := by
  have hmap : mapOption (fun i => createLayer LayerType.HIDDEN (hiddenSizes.getD i 0)
      (some (hiddenActivations.getD i Activation.softmax)))
        (List.range numHiddenLayers.toNat)
      = some ((List.range numHiddenLayers.toNat).map
          (mkHiddenLayer hiddenSizes hiddenActivations)) := by
    apply mapOption_eq_some_map
    intro i hi
    have hipos := hsz i (List.mem_range.mp hi)
    rw [createLayer, if_pos hipos]
    rfl
  have h1 : createLayer LayerType.INPUT numFeatures none
      = some (mkInputLayer numFeatures) := by
    rw [createLayer, if_pos hnf]; rfl
  have h3 : createLayer LayerType.OUTPUT numClasses (some outputActivation)
      = some (mkOutputLayer numClasses outputActivation) := by
    rw [createLayer, if_pos hnc]; rfl
  rw [createNetwork, if_pos ⟨hnf, hnh, hnc⟩]
  simp only [h1, h3, hmap, Option.some_bind]
  rfl

theorem mkLayers_length (nf : Int) (hs : List Int) (ha : List Activation)
    (nc : Int) (oa : Activation) (n : Nat) :
    (mkLayers nf hs ha nc oa n).length = 2 + n := by
  simp [mkLayers]
  omega

theorem mkLayers_getD_zero (nf : Int) (hs : List Int) (ha : List Activation)
    (nc : Int) (oa : Activation) (n : Nat) :
    (mkLayers nf hs ha nc oa n).getD 0 defaultLayer = mkInputLayer nf := by
  simp [mkLayers]

theorem mkLayers_getD_hidden (nf : Int) (hs : List Int) (ha : List Activation)
    (nc : Int) (oa : Activation) (n i : Nat) (hi : i < n) :
    (mkLayers nf hs ha nc oa n).getD (1 + i) defaultLayer
      = mkHiddenLayer hs ha i := by
  have h1 : 1 + i = i + 1 := by omega
  rw [h1, mkLayers, List.getD_cons_succ, List.getD_eq_getElem?_getD,
    List.getElem?_append, if_pos (by simp [hi]), List.getElem?_map,
    List.getElem?_range hi]
  rfl

theorem mkLayers_getD_last (nf : Int) (hs : List Int) (ha : List Activation)
    (nc : Int) (oa : Activation) (n : Nat) :
    (mkLayers nf hs ha nc oa n).getD (1 + n) defaultLayer
      = mkOutputLayer nc oa := by
  have h1 : 1 + n = n + 1 := by omega
  rw [h1, mkLayers, List.getD_cons_succ, List.getD_eq_getElem?_getD,
    List.getElem?_append_right (by simp), List.length_map, List.length_range]
  simp

theorem mkNetwork_connections_getD (nf : Int) (hs : List Int)
    (ha : List Activation) (nc : Int) (oa : Activation) (n i : Nat)
    (hi : i < 2 + n - 1) :
    (mkNetwork nf hs ha nc oa n).connections.getD i defaultConnection
      = { weights := zeroMatrix
            (((mkLayers nf hs ha nc oa n).getD i defaultLayer).size)
            (((mkLayers nf hs ha nc oa n).getD (i + 1) defaultLayer).size),
          bias := zeroMatrix 1
            (((mkLayers nf hs ha nc oa n).getD (i + 1) defaultLayer).size) } := by
  rw [mkNetwork]
  rw [getD_range_map _ _ _ _, if_pos hi]
  rfl

/-- The size of layer i of `mkLayers`, for i in range. -/
theorem mkLayers_getD_size (nf : Int) (hs : List Int) (ha : List Activation)
    (nc : Int) (oa : Activation) (n i : Nat) (hi : i < 2 + n) :
    ((mkLayers nf hs ha nc oa n).getD i defaultLayer).size
      = if i = 0 then nf.toNat
        else if i = 1 + n then nc.toNat
        else (hs.getD (i - 1) 0).toNat := by
  rcases Nat.eq_zero_or_pos i with h0 | hpos
  · subst h0
    rw [mkLayers_getD_zero]
    simp [mkInputLayer]
  · rcases Nat.lt_or_ge i (1 + n) with hlt | hge
    · have hi1 : i - 1 < n := by omega
      have : i = 1 + (i - 1) := by omega
      rw [this, mkLayers_getD_hidden nf hs ha nc oa n (i - 1) hi1]
      have hne0 : ¬ (1 + (i - 1) = 0) := by omega
      have hnel : ¬ (1 + (i - 1) = 1 + n) := by omega
      simp only [if_neg hne0, if_neg hnel, mkHiddenLayer]
      have hidx : 1 + (i - 1) - 1 = i - 1 := by omega
      rw [hidx]
    · have hieq : i = 1 + n := by omega
      subst hieq
      rw [mkLayers_getD_last]
      simp [mkOutputLayer]

theorem createLayer_isSome (t : LayerType) (s : Int) (a : Option Activation) :
    (createLayer t s a).isSome ↔ 0 < s := by
  rw [createLayer]
  by_cases h : 0 < s
  · simp [h]
  · simp [h]

theorem mkNetwork_valid (nf : Int) (hs : List Int) (ha : List Activation)
    (nc : Int) (oa : Activation) (n : Nat)
    (hnf : 0 < nf) (hnc : 0 < nc) (hsz : ∀ i < n, 0 < hs.getD i 0) :
    NetworkValid (mkNetwork nf hs ha nc oa n) := by
  refine ⟨by simp [mkNetwork], ?_, rfl, ?_, ?_, ?_⟩
  · show (mkLayers nf hs ha nc oa n).length = 2 + n
    exact mkLayers_length nf hs ha nc oa n
  · show ((List.range (2 + n - 1)).map _).length = 2 + n - 1
    simp
  · intro l hl
    show 0 < l.size ∧ l.input.cols = l.size
    rcases List.mem_cons.mp hl with h0 | h1
    · subst h0
      constructor
      · show 0 < nf.toNat
        omega
      · rfl
    · rcases List.mem_append.mp h1 with h2 | h3
      · obtain ⟨i, hi, hieq⟩ := List.mem_map.mp h2
        subst hieq
        constructor
        · show 0 < (hs.getD i 0).toNat
          have := hsz i (List.mem_range.mp hi)
          omega
        · rfl
      · have h4 : l = mkOutputLayer nc oa := by simpa using h3
        subst h4
        constructor
        · show 0 < nc.toNat
          omega
        · rfl
  · intro i hi
    have hi2 : i < 2 + n - 1 := hi
    rw [mkNetwork_connections_getD nf hs ha nc oa n i hi2]
    exact ⟨rfl, rfl, rfl⟩

/-- C7: for valid construction parameters, createNetwork returns a network
with numLayers = numHiddenLayers + 2, numConnections = numLayers - 1,
an INPUT layer of size numFeatures at index 0, an OUTPUT layer of size
numClasses with the given output activation at the end, HIDDEN interior
layers carrying hiddenSizes[i-1] and hiddenActivations[i-1], and
connection i of shape layers[i].size x layers[i+1].size with a
1 x layers[i+1].size bias. -/
theorem claim_C7 (numFeatures numHiddenLayers : Int) (hiddenSizes : List Int)
    (hiddenActivations : List Activation) (numClasses : Int)
    (outputActivation : Activation)
    (hnf : 0 < numFeatures) (hnh : 0 ≤ numHiddenLayers) (hnc : 0 < numClasses)
    (hlen : hiddenSizes.length = numHiddenLayers.toNat)
    (hsz : ∀ s ∈ hiddenSizes, 0 < s) :
    ∃ net, createNetwork numFeatures numHiddenLayers hiddenSizes
        hiddenActivations numClasses outputActivation = some net ∧
      net.numLayers = numHiddenLayers.toNat + 2 ∧
      net.numConnections = net.numLayers - 1 ∧
      net.layers.length = net.numLayers ∧
      net.connections.length = net.numConnections ∧
      (net.layers.getD 0 defaultLayer).type = LayerType.INPUT ∧
      (net.layers.getD 0 defaultLayer).size = numFeatures.toNat ∧
      (net.layers.getD (net.numLayers - 1) defaultLayer).type = LayerType.OUTPUT ∧
      (net.layers.getD (net.numLayers - 1) defaultLayer).size = numClasses.toNat ∧
      (net.layers.getD (net.numLayers - 1) defaultLayer).activation
        = some outputActivation ∧
      (∀ i, 0 < i → i < net.numLayers - 1 →
        (net.layers.getD i defaultLayer).type = LayerType.HIDDEN ∧
        (net.layers.getD i defaultLayer).size
          = (hiddenSizes.getD (i - 1) 0).toNat ∧
        (net.layers.getD i defaultLayer).activation
          = some (hiddenActivations.getD (i - 1) Activation.softmax)) ∧
      (∀ k, k < net.numConnections →
        (net.connections.getD k defaultConnection).weights.rows
          = (net.layers.getD k defaultLayer).size ∧
        (net.connections.getD k defaultConnection).weights.cols
          = (net.layers.getD (k + 1) defaultLayer).size ∧
        (net.connections.getD k defaultConnection).bias.rows = 1 ∧
        (net.connections.getD k defaultConnection).bias.cols
          = (net.layers.getD (k + 1) defaultLayer).size) := by
  have hsz2 : ∀ i < numHiddenLayers.toNat, 0 < hiddenSizes.getD i 0 := by
    intro i hi
    have hil : i < hiddenSizes.length := by omega
    rw [List.getD_eq_getElem?_getD, List.getElem?_eq_getElem hil]
    exact hsz _ (List.getElem_mem hil)
  refine ⟨mkNetwork numFeatures hiddenSizes hiddenActivations numClasses
      outputActivation numHiddenLayers.toNat,
    createNetwork_eq numFeatures numHiddenLayers hiddenSizes hiddenActivations
      numClasses outputActivation hnf hnh hnc hsz2, ?_⟩
  set n := numHiddenLayers.toNat with hn
  have hlast : (2 + n) - 1 = 1 + n := by omega
  refine ⟨by show 2 + n = n + 2; omega, rfl, mkLayers_length _ _ _ _ _ _, by simp [mkNetwork], ?_, ?_, ?_, ?_, ?_, ?_, ?_⟩
  · show ((mkLayers numFeatures hiddenSizes hiddenActivations numClasses
      outputActivation n).getD 0 defaultLayer).type = LayerType.INPUT
    rw [mkLayers_getD_zero]
    rfl
  · show ((mkLayers numFeatures hiddenSizes hiddenActivations numClasses
      outputActivation n).getD 0 defaultLayer).size = numFeatures.toNat
    rw [mkLayers_getD_zero]
    rfl
  · show ((mkLayers numFeatures hiddenSizes hiddenActivations numClasses
      outputActivation n).getD ((2 + n) - 1) defaultLayer).type = LayerType.OUTPUT
    rw [hlast, mkLayers_getD_last]
    rfl
  · show ((mkLayers numFeatures hiddenSizes hiddenActivations numClasses
      outputActivation n).getD ((2 + n) - 1) defaultLayer).size = numClasses.toNat
    rw [hlast, mkLayers_getD_last]
    rfl
  · show ((mkLayers numFeatures hiddenSizes hiddenActivations numClasses
      outputActivation n).getD ((2 + n) - 1) defaultLayer).activation
      = some outputActivation
    rw [hlast, mkLayers_getD_last]
    rfl
  · intro i hpos hilt
    obtain ⟨j, rfl⟩ : ∃ j, i = 1 + j := ⟨i - 1, by omega⟩
    have hj : j < n := by
      have h2 : 1 + j < (2 + n) - 1 := hilt
      omega
    have hidx : 1 + j - 1 = j := by omega
    have hlay : (mkNetwork numFeatures hiddenSizes hiddenActivations numClasses
        outputActivation n).layers = mkLayers numFeatures hiddenSizes
        hiddenActivations numClasses outputActivation n := rfl
    rw [hlay, mkLayers_getD_hidden _ _ _ _ _ _ _ hj, hidx]
    exact ⟨rfl, rfl, rfl⟩
  · intro k hk
    have hk2 : k < 2 + n - 1 := hk
    rw [mkNetwork_connections_getD _ _ _ _ _ _ _ hk2]
    exact ⟨rfl, rfl, rfl, rfl⟩

/-- C9 (spec-modelled: the hidden-size check lives in the external
layer/matrix module, modelled per the spec's fatal-precondition policy):
createNetwork aborts exactly when numFeatures <= 0, numHiddenLayers < 0,
numClasses <= 0, or some hidden size is <= 0; it succeeds whenever all
size preconditions hold. -/
theorem claim_C9 (numFeatures numHiddenLayers : Int) (hiddenSizes : List Int)
    (hiddenActivations : List Activation) (numClasses : Int)
    (outputActivation : Activation)
    (hlen : hiddenSizes.length = numHiddenLayers.toNat) :
    (createNetwork numFeatures numHiddenLayers hiddenSizes hiddenActivations
        numClasses outputActivation).isSome
      ↔ (0 < numFeatures ∧ 0 ≤ numHiddenLayers ∧ 0 < numClasses ∧
          ∀ s ∈ hiddenSizes, 0 < s) := by
  rw [createNetwork]
  by_cases hg : 0 < numFeatures ∧ 0 ≤ numHiddenLayers ∧ 0 < numClasses
  · rw [if_pos hg]
    obtain ⟨hnf, hnh, hnc⟩ := hg
    have h1 : createLayer LayerType.INPUT numFeatures none
        = some (mkInputLayer numFeatures) := by
      rw [createLayer, if_pos hnf]; rfl
    have h3 : createLayer LayerType.OUTPUT numClasses (some outputActivation)
        = some (mkOutputLayer numClasses outputActivation) := by
      rw [createLayer, if_pos hnc]; rfl
    simp only [h1, h3, Option.some_bind]
    constructor
    · intro h
      refine ⟨hnf, hnh, hnc, ?_⟩
      cases hma : mapOption (fun i => createLayer LayerType.HIDDEN
          (hiddenSizes.getD i 0) (some (hiddenActivations.getD i Activation.softmax)))
          (List.range numHiddenLayers.toNat) with
      | none => rw [hma] at h; simp at h
      | some out =>
        intro s hsm
        obtain ⟨i, hil, hieq⟩ := List.mem_iff_getElem.mp hsm
        have hall := (mapOption_isSome_iff (fun i => createLayer LayerType.HIDDEN
          (hiddenSizes.getD i 0)
          (some (hiddenActivations.getD i Activation.softmax)))
          (List.range numHiddenLayers.toNat)).mp (by rw [hma]; simp)
        have hone := hall i (List.mem_range.mpr (by omega))
        rw [createLayer_isSome] at hone
        rw [List.getD_eq_getElem?_getD, List.getElem?_eq_getElem hil, hieq] at hone
        exact hone
    · intro ⟨_, _, _, hall⟩
      have hsz2 : ∀ i < numHiddenLayers.toNat, 0 < hiddenSizes.getD i 0 := by
        intro i hi
        have hil : i < hiddenSizes.length := by omega
        rw [List.getD_eq_getElem?_getD, List.getElem?_eq_getElem hil]
        exact hall _ (List.getElem_mem hil)
      have hma : mapOption (fun i => createLayer LayerType.HIDDEN
          (hiddenSizes.getD i 0) (some (hiddenActivations.getD i Activation.softmax)))
          (List.range numHiddenLayers.toNat)
          = some ((List.range numHiddenLayers.toNat).map
              (mkHiddenLayer hiddenSizes hiddenActivations)) := by
        apply mapOption_eq_some_map
        intro i hi
        rw [createLayer, if_pos (hsz2 i (List.mem_range.mp hi))]
        rfl
      rw [hma]
      simp
  · rw [if_neg hg]
    simp only [Option.isSome_none, Bool.false_eq_true, false_iff]
    intro hc
    exact hg ⟨hc.1, hc.2.1, hc.2.2.1⟩

theorem claim_C7_witness :
    ((0 : Int) < 1 ∧ (0 : Int) ≤ 0 ∧ (0 : Int) < 1 ∧
      ([] : List Int).length = (0 : Int).toNat ∧ (∀ s ∈ ([] : List Int), 0 < s)) ∧
    (∃ net, createNetwork 1 0 [] [] 1 Activation.softmax = some net ∧
      net.numLayers = (0 : Int).toNat + 2 ∧
      net.numConnections = net.numLayers - 1 ∧
      net.layers.length = net.numLayers ∧
      net.connections.length = net.numConnections ∧
      (net.layers.getD 0 defaultLayer).type = LayerType.INPUT ∧
      (net.layers.getD 0 defaultLayer).size = (1 : Int).toNat ∧
      (net.layers.getD (net.numLayers - 1) defaultLayer).type = LayerType.OUTPUT ∧
      (net.layers.getD (net.numLayers - 1) defaultLayer).size = (1 : Int).toNat ∧
      (net.layers.getD (net.numLayers - 1) defaultLayer).activation
        = some Activation.softmax ∧
      (∀ i, 0 < i → i < net.numLayers - 1 →
        (net.layers.getD i defaultLayer).type = LayerType.HIDDEN ∧
        (net.layers.getD i defaultLayer).size
          = (([] : List Int).getD (i - 1) 0).toNat ∧
        (net.layers.getD i defaultLayer).activation
          = some (([] : List Activation).getD (i - 1) Activation.softmax)) ∧
      (∀ k, k < net.numConnections →
        (net.connections.getD k defaultConnection).weights.rows
          = (net.layers.getD k defaultLayer).size ∧
        (net.connections.getD k defaultConnection).weights.cols
          = (net.layers.getD (k + 1) defaultLayer).size ∧
        (net.connections.getD k defaultConnection).bias.rows = 1 ∧
        (net.connections.getD k defaultConnection).bias.cols
          = (net.layers.getD (k + 1) defaultLayer).size)) :=
  ⟨⟨by decide, by decide, by decide, by decide, by decide⟩,
    claim_C7 1 0 [] [] 1 Activation.softmax (by decide) (by decide) (by decide)
      (by decide) (by decide)⟩

theorem claim_C9_witness :
    (([2] : List Int).length = (1 : Int).toNat) ∧
    ((createNetwork 1 1 [2] [Activation.relu] 1 Activation.sigmoid).isSome
      ↔ (0 < (1 : Int) ∧ 0 ≤ (1 : Int) ∧ 0 < (1 : Int) ∧
          ∀ s ∈ ([2] : List Int), 0 < s)) :=
  ⟨by decide, claim_C9 1 1 [2] [Activation.relu] 1 Activation.sigmoid (by decide)⟩

/-!  Loss (§4.3). -/

/-- The loss as the specification words it: mean negative log-likelihood
`(-1/N) * sum_i sum_j actual[i][j] * ln(max(prediction[i][j], eps))` with
N the number of rows, plus, when a Network is supplied, an L2 penalty
`strength * 0.5 * sum of squares of all connection weights`; no penalty
when the network is absent. -/
def specCrossEntropyLoss (log : ℚ → ℚ) (dblMin : ℚ) (network : Option Network)
    (prediction actual : Matrix) (regularizationStrength : ℚ) : ℚ :=
  (-1 / (prediction.rows : ℚ)) *
    (∑ i in Finset.range prediction.rows,
      ∑ j in Finset.range prediction.cols,
        actual.data i j * log (max (prediction.data i j) dblMin)) +
  (match network with
   | some net => regularizationStrength * (1 / 2) *
       (net.connections.map (fun c =>
         ∑ i in Finset.range c.weights.rows,
           ∑ j in Finset.range c.weights.cols,
             c.weights.data i j * c.weights.data i j)).sum
   | none => 0)

theorem sum_map_getD (l : List Connection) (f : Connection → ℚ) :
    (∑ k in Finset.range l.length, f (l.getD k defaultConnection))
      = (l.map f).sum := by
  induction l with
  | nil => simp
  | cons a as ih =>
    rw [List.length_cons, Finset.sum_range_succ']
    simp only [List.getD_cons_succ, List.getD_cons_zero, List.map_cons,
      List.sum_cons]
    rw [ih, add_comm]

/-- C2: with matching dimensions, crossEntropyLoss computes exactly the
spec's formula: the mean of actual[i][j] * ln(max(prediction[i][j], eps))
scaled by -1/N plus, for a non-null network, the L2 penalty
strength * 0.5 * sum of squared weights over every connection (biases
excluded); a null network contributes no penalty whatever the strength.
The embedding is a pure function, matching the no-side-effect clause. -/
theorem claim_C2 (log : ℚ → ℚ) (dblMin : ℚ) (network : Option Network)
    (prediction actual : Matrix) (regularizationStrength : ℚ)
    (hr : prediction.rows = actual.rows) (hc : prediction.cols = actual.cols)
    (hn : ∀ net, network = some net →
      net.numConnections = net.connections.length) :
    crossEntropyLoss log dblMin network prediction actual regularizationStrength
      = some (specCrossEntropyLoss log dblMin network prediction actual
          regularizationStrength) := by
  rw [crossEntropyLoss.eq_def, if_pos ⟨hr, hc⟩, specCrossEntropyLoss.eq_def]
  congr 1
  have htot : (∑ i in Finset.range prediction.rows,
      ∑ j in Finset.range prediction.cols,
        actual.data i j * log (max dblMin (prediction.data i j)))
      = (∑ i in Finset.range prediction.rows,
          ∑ j in Finset.range prediction.cols,
            actual.data i j * log (max (prediction.data i j) dblMin)) := by
    apply Finset.sum_congr rfl
    intro i _
    apply Finset.sum_congr rfl
    intro j _
    rw [max_comm]
  cases network with
  | none =>
    dsimp only
    rw [← hr, htot]
    ring
  | some net =>
    have hlen := hn net rfl
    dsimp only
    rw [← hr, htot, hlen, sum_map_getD net.connections (fun c =>
      ∑ i in Finset.range c.weights.rows, ∑ j in Finset.range c.weights.cols,
        c.weights.data i j * c.weights.data i j)]

theorem claim_C2_witness :
    ((Matrix.mk 1 2 fun _ _ => (1 : ℚ)).rows
        = (Matrix.mk 1 2 fun _ _ => (0 : ℚ)).rows ∧
      (Matrix.mk 1 2 fun _ _ => (1 : ℚ)).cols
        = (Matrix.mk 1 2 fun _ _ => (0 : ℚ)).cols ∧
      (∀ net, (none : Option Network) = some net →
        net.numConnections = net.connections.length)) ∧
    crossEntropyLoss id 0 none (Matrix.mk 1 2 fun _ _ => (1 : ℚ))
        (Matrix.mk 1 2 fun _ _ => (0 : ℚ)) 3
      = some (specCrossEntropyLoss id 0 none (Matrix.mk 1 2 fun _ _ => (1 : ℚ))
          (Matrix.mk 1 2 fun _ _ => (0 : ℚ)) 3) :=
  ⟨⟨rfl, rfl, fun _ h => by cases h⟩,
    claim_C2 id 0 none (Matrix.mk 1 2 fun _ _ => (1 : ℚ))
      (Matrix.mk 1 2 fun _ _ => (0 : ℚ)) 3 rfl rfl (fun _ h => by cases h)⟩

/-!  Prediction (§4.4). -/

/-- Invariant of the predict scan: after examining columns below `a`, the
accumulator is a column below `a` holding the maximum of the examined
columns, the earliest one on ties; the scan of the remaining `b` columns
preserves it. -/
theorem foldl_argmax_spec (row : Nat → ℚ) :
    ∀ (b a acc : Nat), acc < a →
      (∀ j, j < a → row j ≤ row acc) → (∀ j, j < acc → row j < row acc) →
      ((List.range' a b).foldl
          (fun max j => if row j > row max then j else max) acc) < a + b ∧
      (∀ j, j < a + b → row j ≤ row ((List.range' a b).foldl
          (fun max j => if row j > row max then j else max) acc)) ∧
      (∀ j, j < ((List.range' a b).foldl
          (fun max j => if row j > row max then j else max) acc) →
        row j < row ((List.range' a b).foldl
          (fun max j => if row j > row max then j else max) acc)) := by
  intro b
  induction b with
  | zero =>
    intro a acc h1 h2 h3
    simp only [List.range', List.foldl_nil]
    exact ⟨by omega, fun j hj => h2 j (by omega), h3⟩
  | succ t ih =>
    intro a acc h1 h2 h3
    rw [List.range'_succ]
    simp only [List.foldl_cons]
    have heq : a + 1 + t = a + (t + 1) := by omega
    by_cases hcase : row a > row acc
    · rw [if_pos hcase]
      have h2a : ∀ j, j < a + 1 → row j ≤ row a := by
        intro j hj
        rcases Nat.lt_or_ge j a with hja | hja
        · exact le_of_lt (lt_of_le_of_lt (h2 j hja) hcase)
        · have : j = a := by omega
          rw [this]
      have h3a : ∀ j, j < a → row j < row a := by
        intro j hj
        exact lt_of_le_of_lt (h2 j hj) hcase
      have := ih (a + 1) a (by omega) h2a h3a
      rw [heq] at this
      exact this
    · rw [if_neg hcase]
      have h2a : ∀ j, j < a + 1 → row j ≤ row acc := by
        intro j hj
        rcases Nat.lt_or_ge j a with hja | hja
        · exact h2 j hja
        · have : j = a := by omega
          rw [this]
          exact le_of_not_lt hcase
      have := ih (a + 1) acc (by omega) h2a h3
      rw [heq] at this
      exact this

/-- C3: predict returns one index per row of the OUTPUT layer's stored
input; each index lies in [0, outputSize), attains the maximum of that
row's first outputSize entries, and is the lowest index attaining it
(every earlier column is strictly smaller). -/
theorem claim_C3 (network : Network)
    (hsz : 0 < (outputLayerOf network).size) :
    (predict network).length = (outputLayerOf network).input.rows ∧
    ∀ i, i < (outputLayerOf network).input.rows →
      ((predict network).getD i 0 < (outputLayerOf network).size ∧
       (∀ j, j < (outputLayerOf network).size →
         (outputLayerOf network).input.data i j
           ≤ (outputLayerOf network).input.data i ((predict network).getD i 0)) ∧
       (∀ j, j < (predict network).getD i 0 →
         (outputLayerOf network).input.data i j
           < (outputLayerOf network).input.data i ((predict network).getD i 0))) := by
  constructor
  · rw [predict]
    simp
  · intro i hi
    have hget : (predict network).getD i 0
        = (List.range' 1 ((outputLayerOf network).size - 1)).foldl
            (fun max j =>
              if (outputLayerOf network).input.data i j
                  > (outputLayerOf network).input.data i max then j
              else max) 0 := by
      rw [predict, getD_range_map, if_pos hi]
    have hbase := foldl_argmax_spec
      (fun j => (outputLayerOf network).input.data i j)
      ((outputLayerOf network).size - 1) 1 0 (by omega)
      (by intro j hj
          have : j = 0 := by omega
          rw [this])
      (by intro j hj; omega)
    have hsum : 1 + ((outputLayerOf network).size - 1)
        = (outputLayerOf network).size := by omega
    rw [hsum] at hbase
    rw [hget]
    exact hbase

theorem claim_C3_witness :
    (0 < (outputLayerOf (Network.mk 2
        [Layer.mk LayerType.INPUT 1 none (zeroMatrix 1 1),
         Layer.mk LayerType.OUTPUT 2 (some Activation.softmax)
           (Matrix.mk 1 2 fun _ j => if j = 0 then (1 : ℚ) else 2)]
        1 [Connection.mk (zeroMatrix 1 2) (zeroMatrix 1 2)])).size) ∧
    ((predict (Network.mk 2
        [Layer.mk LayerType.INPUT 1 none (zeroMatrix 1 1),
         Layer.mk LayerType.OUTPUT 2 (some Activation.softmax)
           (Matrix.mk 1 2 fun _ j => if j = 0 then (1 : ℚ) else 2)]
        1 [Connection.mk (zeroMatrix 1 2) (zeroMatrix 1 2)])).length
      = (outputLayerOf (Network.mk 2
        [Layer.mk LayerType.INPUT 1 none (zeroMatrix 1 1),
         Layer.mk LayerType.OUTPUT 2 (some Activation.softmax)
           (Matrix.mk 1 2 fun _ j => if j = 0 then (1 : ℚ) else 2)]
        1 [Connection.mk (zeroMatrix 1 2) (zeroMatrix 1 2)])).input.rows ∧
    ∀ i, i < (outputLayerOf (Network.mk 2
        [Layer.mk LayerType.INPUT 1 none (zeroMatrix 1 1),
         Layer.mk LayerType.OUTPUT 2 (some Activation.softmax)
           (Matrix.mk 1 2 fun _ j => if j = 0 then (1 : ℚ) else 2)]
        1 [Connection.mk (zeroMatrix 1 2) (zeroMatrix 1 2)])).input.rows →
      ((predict (Network.mk 2
        [Layer.mk LayerType.INPUT 1 none (zeroMatrix 1 1),
         Layer.mk LayerType.OUTPUT 2 (some Activation.softmax)
           (Matrix.mk 1 2 fun _ j => if j = 0 then (1 : ℚ) else 2)]
        1 [Connection.mk (zeroMatrix 1 2) (zeroMatrix 1 2)])).getD i 0
          < (outputLayerOf (Network.mk 2
        [Layer.mk LayerType.INPUT 1 none (zeroMatrix 1 1),
         Layer.mk LayerType.OUTPUT 2 (some Activation.softmax)
           (Matrix.mk 1 2 fun _ j => if j = 0 then (1 : ℚ) else 2)]
        1 [Connection.mk (zeroMatrix 1 2) (zeroMatrix 1 2)])).size ∧
       (∀ j, j < (outputLayerOf (Network.mk 2
        [Layer.mk LayerType.INPUT 1 none (zeroMatrix 1 1),
         Layer.mk LayerType.OUTPUT 2 (some Activation.softmax)
           (Matrix.mk 1 2 fun _ j => if j = 0 then (1 : ℚ) else 2)]
        1 [Connection.mk (zeroMatrix 1 2) (zeroMatrix 1 2)])).size →
         (outputLayerOf (Network.mk 2
        [Layer.mk LayerType.INPUT 1 none (zeroMatrix 1 1),
         Layer.mk LayerType.OUTPUT 2 (some Activation.softmax)
           (Matrix.mk 1 2 fun _ j => if j = 0 then (1 : ℚ) else 2)]
        1 [Connection.mk (zeroMatrix 1 2) (zeroMatrix 1 2)])).input.data i j
           ≤ (outputLayerOf (Network.mk 2
        [Layer.mk LayerType.INPUT 1 none (zeroMatrix 1 1),
         Layer.mk LayerType.OUTPUT 2 (some Activation.softmax)
           (Matrix.mk 1 2 fun _ j => if j = 0 then (1 : ℚ) else 2)]
        1 [Connection.mk (zeroMatrix 1 2) (zeroMatrix 1 2)])).input.data i
             ((predict (Network.mk 2
        [Layer.mk LayerType.INPUT 1 none (zeroMatrix 1 1),
         Layer.mk LayerType.OUTPUT 2 (some Activation.softmax)
           (Matrix.mk 1 2 fun _ j => if j = 0 then (1 : ℚ) else 2)]
        1 [Connection.mk (zeroMatrix 1 2) (zeroMatrix 1 2)])).getD i 0)) ∧
       (∀ j, j < (predict (Network.mk 2
        [Layer.mk LayerType.INPUT 1 none (zeroMatrix 1 1),
         Layer.mk LayerType.OUTPUT 2 (some Activation.softmax)
           (Matrix.mk 1 2 fun _ j => if j = 0 then (1 : ℚ) else 2)]
        1 [Connection.mk (zeroMatrix 1 2) (zeroMatrix 1 2)])).getD i 0 →
         (outputLayerOf (Network.mk 2
        [Layer.mk LayerType.INPUT 1 none (zeroMatrix 1 1),
         Layer.mk LayerType.OUTPUT 2 (some Activation.softmax)
           (Matrix.mk 1 2 fun _ j => if j = 0 then (1 : ℚ) else 2)]
        1 [Connection.mk (zeroMatrix 1 2) (zeroMatrix 1 2)])).input.data i j
           < (outputLayerOf (Network.mk 2
        [Layer.mk LayerType.INPUT 1 none (zeroMatrix 1 1),
         Layer.mk LayerType.OUTPUT 2 (some Activation.softmax)
           (Matrix.mk 1 2 fun _ j => if j = 0 then (1 : ℚ) else 2)]
        1 [Connection.mk (zeroMatrix 1 2) (zeroMatrix 1 2)])).input.data i
             ((predict (Network.mk 2
        [Layer.mk LayerType.INPUT 1 none (zeroMatrix 1 1),
         Layer.mk LayerType.OUTPUT 2 (some Activation.softmax)
           (Matrix.mk 1 2 fun _ j => if j = 0 then (1 : ℚ) else 2)]
        1 [Connection.mk (zeroMatrix 1 2) (zeroMatrix 1 2)])).getD i 0)))) :=
  ⟨by decide,
    claim_C3 (Network.mk 2
      [Layer.mk LayerType.INPUT 1 none (zeroMatrix 1 1),
       Layer.mk LayerType.OUTPUT 2 (some Activation.softmax)
         (Matrix.mk 1 2 fun _ j => if j = 0 then (1 : ℚ) else 2)]
      1 [Connection.mk (zeroMatrix 1 2) (zeroMatrix 1 2)]) (by decide)⟩

/-!  Forward-pass precondition (§4.2). -/

/-- C6: under the layer invariant (the INPUT layer's stored buffer is as
wide as its size), forwardPass aborts exactly when the batch's column
count differs from the INPUT layer's size; when they agree, the failure
branch is unreachable and a network is returned. -/
theorem claim_C6 (F : Activation → Matrix → Matrix) (network : Network)
    (input : Matrix) (hne : network.layers ≠ [])
    (hinv : (network.layers.getD 0 defaultLayer).input.cols
      = (network.layers.getD 0 defaultLayer).size) :
    (forwardPass F network input = none
      ↔ input.cols ≠ (network.layers.getD 0 defaultLayer).size) := by
  cases hl : network.layers with
  | nil => exact absurd hl hne
  | cons l0 rest =>
    rw [hl] at hinv
    simp only [List.getD_cons_zero] at hinv
    rw [forwardPass, hl]
    simp only [List.getD_cons_zero]
    by_cases h : input.cols = l0.input.cols
    · rw [if_pos h]
      simp only [reduceCtorEq, false_iff, not_not]
      omega
    · rw [if_neg h]
      simp only [true_iff]
      omega

theorem claim_C6_witness :
    ((Network.mk 2
        [Layer.mk LayerType.INPUT 1 none (zeroMatrix 1 1),
         Layer.mk LayerType.OUTPUT 1 (some Activation.softmax) (zeroMatrix 1 1)]
        1 [Connection.mk (zeroMatrix 1 1) (zeroMatrix 1 1)]).layers ≠ [] ∧
      (((Network.mk 2
        [Layer.mk LayerType.INPUT 1 none (zeroMatrix 1 1),
         Layer.mk LayerType.OUTPUT 1 (some Activation.softmax) (zeroMatrix 1 1)]
        1 [Connection.mk (zeroMatrix 1 1) (zeroMatrix 1 1)]).layers.getD 0
          defaultLayer).input.cols
        = ((Network.mk 2
        [Layer.mk LayerType.INPUT 1 none (zeroMatrix 1 1),
         Layer.mk LayerType.OUTPUT 1 (some Activation.softmax) (zeroMatrix 1 1)]
        1 [Connection.mk (zeroMatrix 1 1) (zeroMatrix 1 1)]).layers.getD 0
          defaultLayer).size)) ∧
    (forwardPass (fun _ m => m) (Network.mk 2
        [Layer.mk LayerType.INPUT 1 none (zeroMatrix 1 1),
         Layer.mk LayerType.OUTPUT 1 (some Activation.softmax) (zeroMatrix 1 1)]
        1 [Connection.mk (zeroMatrix 1 1) (zeroMatrix 1 1)]) (zeroMatrix 1 3)
        = none
      ↔ (zeroMatrix 1 3).cols ≠ ((Network.mk 2
        [Layer.mk LayerType.INPUT 1 none (zeroMatrix 1 1),
         Layer.mk LayerType.OUTPUT 1 (some Activation.softmax) (zeroMatrix 1 1)]
        1 [Connection.mk (zeroMatrix 1 1) (zeroMatrix 1 1)]).layers.getD 0
          defaultLayer).size) :=
  ⟨⟨by simp, by decide⟩,
    claim_C6 (fun _ m => m) (Network.mk 2
      [Layer.mk LayerType.INPUT 1 none (zeroMatrix 1 1),
       Layer.mk LayerType.OUTPUT 1 (some Activation.softmax) (zeroMatrix 1 1)]
      1 [Connection.mk (zeroMatrix 1 1) (zeroMatrix 1 1)]) (zeroMatrix 1 3)
      (by simp) (by decide)⟩

/-!  Forward propagation shape preservation (§4.2). -/

/-- Shape-consistency of a connection/layer chain: each connection's
weight matrix is as wide as the layer it feeds. -/
def ChainOk : List (Connection × Layer) → Prop
  | [] => True
  | (c, l) :: rest => c.weights.cols = l.size ∧ ChainOk rest

theorem connStep_spec (F : Activation → Matrix → Matrix)
    (hF : ∀ a m, (F a m).rows = m.rows ∧ (F a m).cols = m.cols)
    (cur : Matrix) (c : Connection) (l : Layer) :
    (connStep F cur c l).size = l.size ∧
    (connStep F cur c l).input.rows = cur.rows ∧
    (connStep F cur c l).input.cols = c.weights.cols := by
  obtain ⟨t, sz, act, inp⟩ := l
  rw [connStep, activateLayer]
  cases act with
  | none => exact ⟨rfl, rfl, rfl⟩
  | some a =>
    dsimp only
    refine ⟨rfl, ?_, ?_⟩
    · rw [(hF a _).1]
      rfl
    · rw [(hF a _).2]
      rfl

theorem forwardLayers_spec (F : Activation → Matrix → Matrix)
    (hF : ∀ a m, (F a m).rows = m.rows ∧ (F a m).cols = m.cols) :
    ∀ (pairs : List (Connection × Layer)) (cur : Matrix), ChainOk pairs →
      (forwardLayers F cur pairs).length = pairs.length ∧
      (∀ k, k < pairs.length →
        ((forwardLayers F cur pairs).getD k defaultLayer).input.rows = cur.rows ∧
        ((forwardLayers F cur pairs).getD k defaultLayer).input.cols
          = ((forwardLayers F cur pairs).getD k defaultLayer).size ∧
        ((forwardLayers F cur pairs).getD k defaultLayer).size
          = ((pairs.getD k (defaultConnection, defaultLayer)).2).size) := by
  intro pairs
  induction pairs with
  | nil =>
    intro cur _
    exact ⟨rfl, fun k hk => absurd hk (by simp)⟩
  | cons p rest ih =>
    intro cur hchain
    obtain ⟨c, l⟩ := p
    obtain ⟨hw, hrest⟩ := hchain
    have hstep := connStep_spec F hF cur c l
    have ihs := ih (connStep F cur c l).input hrest
    rw [forwardLayers]
    constructor
    · simp only [List.length_cons, ihs.1]
    · intro k hk
      cases k with
      | zero =>
        simp only [List.getD_cons_zero]
        exact ⟨hstep.2.1, by rw [hstep.2.2, hstep.1, hw], by rw [hstep.1]⟩
      | succ k2 =>
        simp only [List.getD_cons_succ]
        have hk2 : k2 < rest.length := by
          simp only [List.length_cons] at hk
          omega
        have h3 := (ihs.2 k2 hk2)
        exact ⟨by rw [h3.1, hstep.2.1], h3.2.1, h3.2.2⟩

theorem chainOk_zip : ∀ (conns : List Connection) (rest : List Layer),
    conns.length = rest.length →
    (∀ k, k < conns.length →
      (conns.getD k defaultConnection).weights.cols
        = (rest.getD k defaultLayer).size) →
    ChainOk (conns.zip rest) := by
  intro conns
  induction conns with
  | nil =>
    intro rest _ _
    simp [ChainOk]
  | cons c cs ih =>
    intro rest hlen hsh
    cases rest with
    | nil => simp at hlen
    | cons r rs =>
      refine ⟨?_, ?_⟩
      · have := hsh 0 (by simp)
        simpa using this
      · apply ih rs (by simpa using hlen)
        intro k hk
        have := hsh (k + 1) (by simp; omega)
        simpa using this

theorem zip_getD_snd : ∀ (conns : List Connection) (rest : List Layer) (k : Nat),
    conns.length = rest.length → k < rest.length →
    ((conns.zip rest).getD k (defaultConnection, defaultLayer)).2
      = rest.getD k defaultLayer := by
  intro conns
  induction conns with
  | nil =>
    intro rest k hlen hk
    rw [← hlen] at hk
    simp at hk
  | cons c cs ih =>
    intro rest k hlen hk
    cases rest with
    | nil => simp at hk
    | cons r rs =>
      cases k with
      | zero => simp
      | succ k2 =>
        simp only [List.zip_cons_cons, List.getD_cons_succ]
        exact ih rs k2 (by simpa using hlen) (by simpa using hk)

/-- Central forward-pass lemma: on a valid network, with a
shape-preserving activation library and a batch as wide as the INPUT
layer, forwardPass succeeds and every layer ends up holding an input
with the batch's row count and a column count equal to its own size. -/
theorem forwardPass_spec (F : Activation → Matrix → Matrix) (network : Network)
    (input : Matrix) (hv : NetworkValid network)
    (hF : ∀ a m, (F a m).rows = m.rows ∧ (F a m).cols = m.cols)
    (hcols : input.cols = (network.layers.getD 0 defaultLayer).size) :
    ∃ net2, forwardPass F network input = some net2 ∧
      net2.layers.length = network.layers.length ∧
      (∀ i, i < net2.layers.length →
        ((net2.layers.getD i defaultLayer).input.rows = input.rows ∧
         (net2.layers.getD i defaultLayer).input.cols
           = (net2.layers.getD i defaultLayer).size ∧
         (net2.layers.getD i defaultLayer).size
           = (network.layers.getD i defaultLayer).size)) ∧
      ((net2.layers.getD (net2.layers.length - 1) defaultLayer).input.cols
        = (network.layers.getD (network.numLayers - 1) defaultLayer).size) := by
  obtain ⟨h2, hlay, hnc, hcl, hinv, hsh⟩ := hv
  cases hls : network.layers with
  | nil => rw [hls] at hlay; simp at hlay; omega
  | cons l0 rest =>
    have hl0 : l0 ∈ network.layers := by rw [hls]; simp
    have hl0inv := hinv l0 hl0
    have hg0 : network.layers.getD 0 defaultLayer = l0 := by rw [hls]; simp
    have hcond : input.cols = l0.input.cols := by
      rw [hl0inv.2, ← hg0, ← hcols]
    have hchain : ChainOk (network.connections.zip rest) := by
      apply chainOk_zip
      · have : rest.length + 1 = network.numLayers := by
          rw [← hlay, hls]; simp
        omega
      · intro k hk
        have hk2 : k < network.numConnections := by omega
        have := (hsh k hk2).2.1
        rw [this, hls, List.getD_cons_succ]
    have hfl := forwardLayers_spec F hF (network.connections.zip rest) input hchain
    have hrestlen : rest.length + 1 = network.numLayers := by
      rw [← hlay, hls]
      simp
    have hziplen : (network.connections.zip rest).length = rest.length := by
      rw [List.length_zip]
      omega
    have hcols2 : input.cols = l0.size := by
      rw [hcols, hg0]
    have hall : ∀ i, i < rest.length + 1 →
        ((({ l0 with input := copy input } ::
            forwardLayers F input (network.connections.zip rest)).getD i
              defaultLayer).input.rows = input.rows ∧
         (({ l0 with input := copy input } ::
            forwardLayers F input (network.connections.zip rest)).getD i
              defaultLayer).input.cols
           = (({ l0 with input := copy input } ::
              forwardLayers F input (network.connections.zip rest)).getD i
                defaultLayer).size ∧
         (({ l0 with input := copy input } ::
            forwardLayers F input (network.connections.zip rest)).getD i
              defaultLayer).size
           = ((l0 :: rest).getD i defaultLayer).size) := by
      intro i hi
      cases i with
      | zero =>
        simp only [List.getD_cons_zero]
        exact ⟨rfl, hcols2, trivial⟩
      | succ k =>
        simp only [List.getD_cons_succ]
        have hk : k < (network.connections.zip rest).length := by omega
        have h3 := hfl.2 k hk
        refine ⟨h3.1, h3.2.1, ?_⟩
        rw [h3.2.2, zip_getD_snd _ _ _ (by omega) (by omega)]
    refine ⟨{ network with
      layers := { l0 with input := copy input } ::
        forwardLayers F input (network.connections.zip rest) },
      by rw [forwardPass, hls]; dsimp only; rw [if_pos hcond], ?_, ?_, ?_⟩
    · have hrec : ({ network with
        layers := { l0 with input := copy input } ::
          forwardLayers F input (network.connections.zip rest) } : Network).layers
          = { l0 with input := copy input } ::
            forwardLayers F input (network.connections.zip rest) := rfl
      rw [hrec, List.length_cons, hfl.1, hziplen, List.length_cons]
    · intro i hi
      have hrec : ({ network with
        layers := { l0 with input := copy input } ::
          forwardLayers F input (network.connections.zip rest) } : Network).layers
          = { l0 with input := copy input } ::
            forwardLayers F input (network.connections.zip rest) := rfl
      rw [hrec] at hi ⊢
      rw [List.length_cons, hfl.1, hziplen] at hi
      exact hall i hi
    · have hrec : ({ network with
        layers := { l0 with input := copy input } ::
          forwardLayers F input (network.connections.zip rest) } : Network).layers
          = { l0 with input := copy input } ::
            forwardLayers F input (network.connections.zip rest) := rfl
      rw [hrec, List.length_cons, hfl.1, hziplen]
      have hlast := hall rest.length (by omega)
      have hidx : rest.length + 1 - 1 = rest.length := by omega
      rw [hidx, hlast.2.1, hlast.2.2]
      have hidx2 : network.numLayers - 1 = rest.length := by omega
      rw [hidx2]

/-- C4: when the batch is as wide as the INPUT layer, forwardPass
succeeds and leaves every layer holding an input with the batch's row
count and with column count equal to that layer's (unchanged) size; in
particular the OUTPUT layer's input is as wide as the OUTPUT layer
(numClasses). -/
theorem claim_C4 (F : Activation → Matrix → Matrix) (network : Network)
    (input : Matrix) (hv : NetworkValid network)
    (hF : ∀ a m, (F a m).rows = m.rows ∧ (F a m).cols = m.cols)
    (hcols : input.cols = (network.layers.getD 0 defaultLayer).size) :
    ∃ net2, forwardPass F network input = some net2 ∧
      net2.layers.length = network.layers.length ∧
      (∀ i, i < net2.layers.length →
        ((net2.layers.getD i defaultLayer).input.rows = input.rows ∧
         (net2.layers.getD i defaultLayer).input.cols
           = (net2.layers.getD i defaultLayer).size ∧
         (net2.layers.getD i defaultLayer).size
           = (network.layers.getD i defaultLayer).size)) ∧
      ((net2.layers.getD (net2.layers.length - 1) defaultLayer).input.cols
        = (network.layers.getD (network.numLayers - 1) defaultLayer).size) :=
  forwardPass_spec F network input hv hF hcols

/-- A minimal valid two-layer network (INPUT size 1, OUTPUT size 1 with
softmax), used to instantiate theorems with hypotheses. -/
def exNetA : Network :=
  Network.mk 2
    [Layer.mk LayerType.INPUT 1 none (zeroMatrix 1 1),
     Layer.mk LayerType.OUTPUT 1 (some Activation.softmax) (zeroMatrix 1 1)]
    1 [Connection.mk (zeroMatrix 1 1) (zeroMatrix 1 1)]

theorem claim_C4_witness :
    (NetworkValid exNetA ∧
      (∀ a m, ((fun (_ : Activation) (m : Matrix) => m) a m).rows = m.rows ∧
        ((fun (_ : Activation) (m : Matrix) => m) a m).cols = m.cols) ∧
      (zeroMatrix 1 1).cols = (exNetA.layers.getD 0 defaultLayer).size) ∧
    (∃ net2, forwardPass (fun _ m => m) exNetA (zeroMatrix 1 1) = some net2 ∧
      net2.layers.length = exNetA.layers.length ∧
      (∀ i, i < net2.layers.length →
        ((net2.layers.getD i defaultLayer).input.rows = (zeroMatrix 1 1).rows ∧
         (net2.layers.getD i defaultLayer).input.cols
           = (net2.layers.getD i defaultLayer).size ∧
         (net2.layers.getD i defaultLayer).size
           = (exNetA.layers.getD i defaultLayer).size)) ∧
      ((net2.layers.getD (net2.layers.length - 1) defaultLayer).input.cols
        = (exNetA.layers.getD (exNetA.numLayers - 1) defaultLayer).size)) :=
  ⟨⟨by unfold NetworkValid; decide, fun _ m => ⟨rfl, rfl⟩, by decide⟩,
    claim_C4 (fun _ m => m) exNetA (zeroMatrix 1 1) (by unfold NetworkValid; decide)
      (fun _ m => ⟨rfl, rfl⟩) (by decide)⟩

/-!  Accuracy (§4.4). -/

theorem foldl_count_eq_filter (p : Nat → Prop) [DecidablePred p] :
    ∀ (l : List Nat) (init : ℚ),
      l.foldl (fun acc i => if p i then acc + 1 else acc) init
        = init + (((l.filter (fun i => decide (p i))).length : Nat) : ℚ) := by
  intro l
  induction l with
  | nil => simp
  | cons a as ih =>
    intro init
    simp only [List.foldl_cons, List.filter_cons]
    by_cases hp : p a
    · rw [if_pos hp, if_pos (by simpa using hp), ih]
      push_cast [List.length_cons]
      ring
    · rw [if_neg hp, if_neg (by simpa using hp), ih]

/-- C5 (amended: the forward pass inside accuracy additionally requires
data.cols to equal the INPUT layer's size; without that the inner
assertion aborts, see the counterexample): under both width conditions,
accuracy runs a fresh forward pass and returns the number of rows whose
predicted index hits a 1 in the classes row, divided by the row count,
and that value lies in [0, 1]. -/
theorem claim_C5 (F : Activation → Matrix → Matrix) (network : Network)
    (data classes : Matrix) (hv : NetworkValid network)
    (hF : ∀ a m, (F a m).rows = m.rows ∧ (F a m).cols = m.cols)
    (hrc : data.rows = classes.rows)
    (hco : data.cols = (outputLayerOf network).size)
    (hci : data.cols = (network.layers.getD 0 defaultLayer).size) :
    ∃ net2, forwardPass F network data = some net2 ∧
      accuracy F network data classes
        = some (((((List.range data.rows).filter
            (fun i => decide (classes.data i ((predict net2).getD i 0) = 1))).length
              : Nat) : ℚ) / (classes.rows : ℚ)) ∧
      (0 : ℚ) ≤ ((((List.range data.rows).filter
            (fun i => decide (classes.data i ((predict net2).getD i 0) = 1))).length
              : Nat) : ℚ) / (classes.rows : ℚ) ∧
      ((((List.range data.rows).filter
            (fun i => decide (classes.data i ((predict net2).getD i 0) = 1))).length
              : Nat) : ℚ) / (classes.rows : ℚ) ≤ 1 := by
  obtain ⟨net2, hfp, _⟩ := forwardPass_spec F network data hv hF hci
  refine ⟨net2, hfp, ?_, ?_, ?_⟩
  · rw [accuracy, if_pos ⟨hrc, hco⟩, hfp, Option.map_some']
    congr 1
    rw [foldl_count_eq_filter
      (fun i => classes.data i ((predict net2).getD i 0) = 1)
      (List.range data.rows) 0, zero_add]
  · apply div_nonneg
    · exact Nat.cast_nonneg _
    · exact Nat.cast_nonneg _
  · rcases Nat.eq_zero_or_pos classes.rows with h0 | hpos
    · rw [h0]
      simp
    · rw [div_le_one (by exact_mod_cast hpos)]
      have hle : ((List.range data.rows).filter
          (fun i => decide (classes.data i ((predict net2).getD i 0) = 1))).length
            ≤ classes.rows := by
        calc ((List.range data.rows).filter
            (fun i => decide (classes.data i ((predict net2).getD i 0) = 1))).length
            ≤ (List.range data.rows).length := List.length_filter_le _ _
          _ = data.rows := List.length_range data.rows
          _ = classes.rows := hrc
      exact_mod_cast hle

/-- A valid network whose INPUT layer is wider than its OUTPUT layer:
INPUT size 2, OUTPUT size 1. -/
def exNetB : Network :=
  Network.mk 2
    [Layer.mk LayerType.INPUT 2 none (zeroMatrix 1 2),
     Layer.mk LayerType.OUTPUT 1 (some Activation.softmax) (zeroMatrix 1 1)]
    1 [Connection.mk (zeroMatrix 2 1) (zeroMatrix 1 1)]

/-- C5 counterexample: on a valid network with INPUT size 2 and OUTPUT
size 1, a 1 x 1 batch satisfies the claim's two preconditions
(data.rows = classes.rows and data.cols = OUTPUT size), yet accuracy
aborts (the forward pass inside asserts data.cols against the INPUT
layer) instead of returning a ratio. -/
theorem claim_C5_counterexample :
    NetworkValid exNetB ∧
    (zeroMatrix 1 1).rows = (zeroMatrix 1 1).rows ∧
    (zeroMatrix 1 1).cols = (outputLayerOf exNetB).size ∧
    accuracy (fun _ m => m) exNetB (zeroMatrix 1 1) (zeroMatrix 1 1) = none := by
  refine ⟨by unfold NetworkValid; decide, rfl, by decide, ?_⟩
  rw [accuracy, if_pos (by decide)]
  rw [show forwardPass (fun _ m => m) exNetB (zeroMatrix 1 1) = none from by
    rw [forwardPass, show exNetB.layers = [Layer.mk LayerType.INPUT 2 none
      (zeroMatrix 1 2), Layer.mk LayerType.OUTPUT 1 (some Activation.softmax)
      (zeroMatrix 1 1)] from rfl]
    dsimp only
    rw [if_neg (by decide)]]
  rfl

theorem claim_C5_witness :
    (NetworkValid exNetA ∧
      (∀ a m, ((fun (_ : Activation) (m : Matrix) => m) a m).rows = m.rows ∧
        ((fun (_ : Activation) (m : Matrix) => m) a m).cols = m.cols) ∧
      (zeroMatrix 1 1).rows = (zeroMatrix 1 1).rows ∧
      (zeroMatrix 1 1).cols = (outputLayerOf exNetA).size ∧
      (zeroMatrix 1 1).cols = (exNetA.layers.getD 0 defaultLayer).size) ∧
    (∃ net2, forwardPass (fun _ m => m) exNetA (zeroMatrix 1 1) = some net2 ∧
      accuracy (fun _ m => m) exNetA (zeroMatrix 1 1) (zeroMatrix 1 1)
        = some (((((List.range (zeroMatrix 1 1).rows).filter
            (fun i => decide ((zeroMatrix 1 1).data i
              ((predict net2).getD i 0) = 1))).length : Nat) : ℚ)
                / ((zeroMatrix 1 1).rows : ℚ)) ∧
      (0 : ℚ) ≤ ((((List.range (zeroMatrix 1 1).rows).filter
            (fun i => decide ((zeroMatrix 1 1).data i
              ((predict net2).getD i 0) = 1))).length : Nat) : ℚ)
                / ((zeroMatrix 1 1).rows : ℚ) ∧
      ((((List.range (zeroMatrix 1 1).rows).filter
            (fun i => decide ((zeroMatrix 1 1).data i
              ((predict net2).getD i 0) = 1))).length : Nat) : ℚ)
                / ((zeroMatrix 1 1).rows : ℚ) ≤ 1) :=
  ⟨⟨by unfold NetworkValid; decide, fun _ m => ⟨rfl, rfl⟩, rfl, by decide, by decide⟩,
    claim_C5 (fun _ m => m) exNetA (zeroMatrix 1 1) (zeroMatrix 1 1)
      (by unfold NetworkValid; decide) (fun _ m => ⟨rfl, rfl⟩) rfl
      (by decide) (by decide)⟩

/-!  Serialization (§4.5, §6). -/

theorem hiddenActName_ne_softmax (a : Option Activation) :
    hiddenActName a ≠ "softmax" := by
  rw [hiddenActName]
  by_cases h1 : a = some Activation.sigmoid
  · rw [if_pos h1]
    decide
  · rw [if_neg h1]
    by_cases h2 : a = some Activation.relu
    · rw [if_pos h2]
      decide
    · rw [if_neg h2]
      decide

/-- C8: on write, the token "softmax" appears in the serialized stream
exactly when the output activation is softmax (hidden names are never
"softmax", and size/weight/bias lines are not name tokens); on read,
the tokens sigmoid, relu, tanH map to their activations and every other
token maps to softmax. -/
theorem claim_C8 (network : Network) :
    (Line.name "softmax" ∈ saveNetwork network
      ↔ (outputLayerOf network).activation = some Activation.softmax) ∧
    parseActLine (Line.name "sigmoid") = Activation.sigmoid ∧
    parseActLine (Line.name "relu") = Activation.relu ∧
    parseActLine (Line.name "tanH") = Activation.tanH ∧
    (∀ s : String, s ≠ "sigmoid" → s ≠ "relu" → s ≠ "tanH" →
      parseActLine (Line.name s) = Activation.softmax) := by
  have hsz : Line.name "softmax" ∉ saveSizeLines network := by
    rw [saveSizeLines]
    intro hmem
    obtain ⟨i, _, heq⟩ := List.mem_map.mp hmem
    simp at heq
  have hh : Line.name "softmax" ∉ saveHiddenLines network := by
    rw [saveHiddenLines]
    intro hmem
    obtain ⟨i, _, heq⟩ := List.mem_map.mp hmem
    have heq2 : hiddenActName
        ((network.layers.getD (1 + i) defaultLayer).activation) = "softmax" :=
      Line.name.inj heq
    exact hiddenActName_ne_softmax _ heq2
  have hw : Line.name "softmax" ∉ saveWeightLines network := by
    rw [saveWeightLines]
    intro hmem
    obtain ⟨k, _, hmem2⟩ := List.mem_flatMap.mp hmem
    obtain ⟨i, _, hmem3⟩ := List.mem_flatMap.mp hmem2
    obtain ⟨j, _, heq⟩ := List.mem_map.mp hmem3
    simp at heq
  have hb : Line.name "softmax" ∉ saveBiasLines network := by
    rw [saveBiasLines]
    intro hmem
    obtain ⟨k, _, hmem2⟩ := List.mem_flatMap.mp hmem
    obtain ⟨i, _, heq⟩ := List.mem_map.mp hmem2
    simp at heq
  have hiff2 : Line.name "softmax" ∈ saveNetwork network
      ↔ Line.name "softmax" ∈ saveOutputLines network := by
    rw [saveNetwork]
    simp only [List.mem_cons, List.mem_append]
    constructor
    · rintro (h | h | h | h | h | h)
      · simp at h
      · exact absurd h hsz
      · exact absurd h hh
      · exact h
      · exact absurd h hw
      · exact absurd h hb
    · intro h
      tauto
  refine ⟨?_, rfl, rfl, rfl, ?_⟩
  · rw [hiff2, saveOutputLines]
    by_cases ho : (outputLayerOf network).activation = some Activation.softmax
    · rw [if_pos ho]
      simp [ho]
    · rw [if_neg ho]
      simp [ho]
  · intro s h1 h2 h3
    show (if s = "sigmoid" then Activation.sigmoid
      else if s = "relu" then Activation.relu
      else if s = "tanH" then Activation.tanH
      else Activation.softmax) = Activation.softmax
    rw [if_neg h1, if_neg h2, if_neg h3]

theorem claim_C8_witness :
    ((Line.name "softmax" ∈ saveNetwork exNetA
      ↔ (outputLayerOf exNetA).activation = some Activation.softmax) ∧
     ("gelu" : String) ≠ "sigmoid" ∧ ("gelu" : String) ≠ "relu" ∧
     ("gelu" : String) ≠ "tanH") ∧
    parseActLine (Line.name "gelu") = Activation.softmax :=
  ⟨⟨(claim_C8 exNetA).1, by decide, by decide, by decide⟩,
    (claim_C8 exNetA).2.2.2.2 "gelu" (by decide) (by decide) (by decide)⟩

/-- A three-layer network whose single HIDDEN layer uses softmax (and a
softmax OUTPUT layer, so the stream stays aligned on read). -/
def exNetC : Network :=
  Network.mk 3
    [Layer.mk LayerType.INPUT 1 none (zeroMatrix 1 1),
     Layer.mk LayerType.HIDDEN 1 (some Activation.softmax) (zeroMatrix 1 1),
     Layer.mk LayerType.OUTPUT 1 (some Activation.softmax) (zeroMatrix 1 1)]
    2 [Connection.mk (zeroMatrix 1 1) (zeroMatrix 1 1),
       Connection.mk (zeroMatrix 1 1) (zeroMatrix 1 1)]

/-- C10: saveNetwork writes every hidden activation other than sigmoid
and relu as the token "tanH"; consequently a softmax hidden layer is
persisted as tanH and comes back as tanH, not softmax, after a
save/load round trip. -/
theorem claim_C10 :
    (∀ a : Activation, a ≠ Activation.sigmoid → a ≠ Activation.relu →
      hiddenActName (some a) = "tanH") ∧
    (exNetC.layers.getD 1 defaultLayer).activation = some Activation.softmax ∧
    ((readNetwork (saveNetwork exNetC)).map
      (fun n => (n.layers.getD 1 defaultLayer).activation))
        = some (some Activation.tanH) := by
  refine ⟨?_, rfl, by decide⟩
  intro a h1 h2
  cases a
  · exact absurd rfl h1
  · exact absurd rfl h2
  · decide
  · decide

theorem claim_C10_witness :
    (Activation.softmax ≠ Activation.sigmoid ∧
     Activation.softmax ≠ Activation.relu) ∧
    hiddenActName (some Activation.softmax) = "tanH" :=
  ⟨⟨by decide, by decide⟩,
    (claim_C10).1 Activation.softmax (by decide) (by decide)⟩

/-- A two-layer network with a sigmoid OUTPUT activation: saveNetwork
omits the output-activation line, so readNetwork consumes the first
weight line as an activation token. -/
def exNetD : Network :=
  Network.mk 2
    [Layer.mk LayerType.INPUT 1 none (zeroMatrix 1 1),
     Layer.mk LayerType.OUTPUT 1 (some Activation.sigmoid) (zeroMatrix 1 1)]
    1 [Connection.mk (zeroMatrix 1 1) (zeroMatrix 1 1)]

/-- C1 counterexample: for a network whose output activation is sigmoid,
the save/load round trip does not preserve the output activation — the
reader, which always consumes numLayers-1 activation tokens, reads the
first weight line as a token and defaults it to softmax. -/
theorem claim_C1_counterexample :
    (outputLayerOf exNetD).activation = some Activation.sigmoid ∧
    ((readNetwork (saveNetwork exNetD)).map
      (fun n => (outputLayerOf n).activation)) = some (some Activation.softmax) :=
  ⟨rfl, by decide⟩

/-!  Round trip: positional description of the saved stream. -/

theorem getElem?_range_map {β : Type} (f : Nat → β) (n i : Nat) (hi : i < n) :
    ((List.range n).map f)[i]? = some (f i) := by
  rw [List.getElem?_map, List.getElem?_range hi]
  rfl

theorem length_saveSizeLines (net : Network) :
    (saveSizeLines net).length = net.numLayers := by
  simp [saveSizeLines]

theorem length_saveHiddenLines (net : Network) :
    (saveHiddenLines net).length = net.numLayers - 2 := by
  simp [saveHiddenLines]

theorem saveOutputLines_softmax (net : Network)
    (hout : (outputLayerOf net).activation = some Activation.softmax) :
    saveOutputLines net = [Line.name "softmax"] := by
  rw [saveOutputLines, if_pos hout]

theorem length_rect (r c : Nat) (g : Nat → Nat → Line) :
    ((List.range r).flatMap (fun i => (List.range c).map (g i))).length
      = r * c := by
  rw [length_flatMap_range]
  simp [mul_comm]

theorem getElem?_rect (r c : Nat) (g : Nat → Nat → Line) (i j : Nat)
    (hi : i < r) (hj : j < c) :
    ((List.range r).flatMap (fun i2 => (List.range c).map (g i2)))[i * c + j]?
      = some (g i j) := by
  have hsum : i * c = ∑ m in Finset.range i,
      ((List.range c).map (g m)).length := by
    simp [mul_comm]
  rw [show i * c + j = (∑ m in Finset.range i,
    ((List.range c).map (g m)).length) + j from by rw [← hsum]]
  rw [getElem?_flatMap_range _ _ _ _ hi (by simpa using hj)]
  exact getElem?_range_map (g i) c j hj

theorem length_saveWeightLines (net : Network) :
    (saveWeightLines net).length
      = ∑ k in Finset.range net.numConnections,
          ((net.connections.getD k defaultConnection).weights.rows *
            (net.connections.getD k defaultConnection).weights.cols) := by
  rw [saveWeightLines, length_flatMap_range]
  apply Finset.sum_congr rfl
  intro k _
  exact length_rect _ _ _

theorem save_getD_zero (net : Network) (d : Line) :
    (saveNetwork net).getD 0 d = Line.num net.numLayers := by
  rw [saveNetwork, List.getD_cons_zero]

theorem save_getD_size (net : Network) (i : Nat) (hi : i < net.numLayers)
    (d : Line) :
    (saveNetwork net).getD (1 + i) d
      = Line.num ((net.layers.getD i defaultLayer).size) := by
  rw [saveNetwork, show 1 + i = i + 1 from by omega, List.getD_cons_succ,
    List.getD_eq_getElem?_getD, List.getElem?_append,
    if_pos (by rw [length_saveSizeLines]; exact hi)]
  simp only [saveSizeLines]
  rw [getElem?_range_map _ _ _ hi]
  rfl

theorem save_getD_hidden (net : Network) (i : Nat)
    (hi : i < net.numLayers - 2) (d : Line) :
    (saveNetwork net).getD (1 + net.numLayers + i) d
      = Line.name (hiddenActName
          ((net.layers.getD (1 + i) defaultLayer).activation)) := by
  rw [saveNetwork,
    show 1 + net.numLayers + i = (net.numLayers + i) + 1 from by omega,
    List.getD_cons_succ, List.getD_eq_getElem?_getD,
    List.getElem?_append_right (by rw [length_saveSizeLines]; omega),
    length_saveSizeLines,
    show net.numLayers + i - net.numLayers = i from by omega,
    List.getElem?_append, if_pos (by rw [length_saveHiddenLines]; exact hi)]
  simp only [saveHiddenLines]
  rw [getElem?_range_map _ _ _ hi]
  rfl

theorem save_getD_funcLast (net : Network) (_h2 : 2 ≤ net.numLayers)
    (hout : (outputLayerOf net).activation = some Activation.softmax)
    (d : Line) :
    (saveNetwork net).getD (1 + net.numLayers + (net.numLayers - 2)) d
      = Line.name "softmax" := by
  rw [saveNetwork,
    show 1 + net.numLayers + (net.numLayers - 2)
      = (net.numLayers + (net.numLayers - 2)) + 1 from by omega,
    List.getD_cons_succ, List.getD_eq_getElem?_getD,
    List.getElem?_append_right (by rw [length_saveSizeLines]; omega),
    length_saveSizeLines,
    show net.numLayers + (net.numLayers - 2) - net.numLayers
      = net.numLayers - 2 from by omega,
    List.getElem?_append_right (by rw [length_saveHiddenLines]),
    length_saveHiddenLines, Nat.sub_self,
    saveOutputLines_softmax net hout, List.singleton_append,
    List.getElem?_cons_zero]
  rfl

theorem save_getElem_param (net : Network) (h2 : 2 ≤ net.numLayers)
    (hout : (outputLayerOf net).activation = some Activation.softmax)
    (t : Nat) :
    (saveNetwork net)[(1 + net.numLayers + (net.numLayers - 1)) + t]?
      = (saveWeightLines net ++ saveBiasLines net)[t]? := by
  rw [saveNetwork,
    show (1 + net.numLayers + (net.numLayers - 1)) + t
      = (net.numLayers + (net.numLayers - 1) + t) + 1 from by omega,
    List.getElem?_cons_succ,
    List.getElem?_append_right (by rw [length_saveSizeLines]; omega),
    length_saveSizeLines,
    show net.numLayers + (net.numLayers - 1) + t - net.numLayers
      = (net.numLayers - 1) + t from by omega,
    List.getElem?_append_right (by rw [length_saveHiddenLines]; omega),
    length_saveHiddenLines,
    show net.numLayers - 1 + t - (net.numLayers - 2) = 1 + t from by omega,
    saveOutputLines_softmax net hout, List.singleton_append,
    show 1 + t = t + 1 from by omega, List.getElem?_cons_succ]

theorem save_getElem_weight (net : Network) (h2 : 2 ≤ net.numLayers)
    (hout : (outputLayerOf net).activation = some Activation.softmax)
    (k i j : Nat) (hk : k < net.numConnections)
    (hi : i < (net.connections.getD k defaultConnection).weights.rows)
    (hj : j < (net.connections.getD k defaultConnection).weights.cols) :
    (saveNetwork net)[(1 + net.numLayers + (net.numLayers - 1)) +
        ((∑ m in Finset.range k,
          ((net.connections.getD m defaultConnection).weights.rows *
            (net.connections.getD m defaultConnection).weights.cols)) +
          (i * (net.connections.getD k defaultConnection).weights.cols + j))]?
      = some (Line.val
          ((net.connections.getD k defaultConnection).weights.data i j)) := by
  rw [save_getElem_param net h2 hout]
  have hblk : ∀ m : Nat, ((List.range
      ((net.connections.getD m defaultConnection).weights.rows)).flatMap
        (fun i2 => (List.range
          ((net.connections.getD m defaultConnection).weights.cols)).map
            (fun j2 => Line.val
              ((net.connections.getD m defaultConnection).weights.data i2 j2)))).length
      = (net.connections.getD m defaultConnection).weights.rows *
          (net.connections.getD m defaultConnection).weights.cols := by
    intro m
    exact length_rect _ _ _
  have hin : i * (net.connections.getD k defaultConnection).weights.cols + j
      < (net.connections.getD k defaultConnection).weights.rows *
          (net.connections.getD k defaultConnection).weights.cols := by
    calc i * (net.connections.getD k defaultConnection).weights.cols + j
        < i * (net.connections.getD k defaultConnection).weights.cols +
            (net.connections.getD k defaultConnection).weights.cols := by omega
      _ = (i + 1) * (net.connections.getD k defaultConnection).weights.cols := by
          ring
      _ ≤ (net.connections.getD k defaultConnection).weights.rows *
            (net.connections.getD k defaultConnection).weights.cols :=
          Nat.mul_le_mul_right _ (by omega)
  have htlt : (∑ m in Finset.range k,
      ((net.connections.getD m defaultConnection).weights.rows *
        (net.connections.getD m defaultConnection).weights.cols)) +
      (i * (net.connections.getD k defaultConnection).weights.cols + j)
      < (saveWeightLines net).length := by
    rw [length_saveWeightLines]
    calc (∑ m in Finset.range k,
        ((net.connections.getD m defaultConnection).weights.rows *
          (net.connections.getD m defaultConnection).weights.cols)) +
        (i * (net.connections.getD k defaultConnection).weights.cols + j)
        < ∑ m in Finset.range (k + 1),
            ((net.connections.getD m defaultConnection).weights.rows *
              (net.connections.getD m defaultConnection).weights.cols) := by
          rw [Finset.sum_range_succ]
          omega
      _ ≤ ∑ m in Finset.range net.numConnections,
            ((net.connections.getD m defaultConnection).weights.rows *
              (net.connections.getD m defaultConnection).weights.cols) := by
          apply Finset.sum_le_sum_of_subset
          intro x hx
          simp only [Finset.mem_range] at *
          omega
  rw [List.getElem?_append, if_pos htlt, saveWeightLines]
  have hpre : (∑ m in Finset.range k,
      ((net.connections.getD m defaultConnection).weights.rows *
        (net.connections.getD m defaultConnection).weights.cols))
      = ∑ m in Finset.range k, ((List.range
          ((net.connections.getD m defaultConnection).weights.rows)).flatMap
            (fun i2 => (List.range
              ((net.connections.getD m defaultConnection).weights.cols)).map
                (fun j2 => Line.val
                  ((net.connections.getD m defaultConnection).weights.data i2 j2)))).length := by
    apply Finset.sum_congr rfl
    intro m _
    rw [hblk m]
  rw [hpre, getElem?_flatMap_range _ _ _ _ hk (by rw [hblk k]; exact hin)]
  exact getElem?_rect _ _ _ i j hi hj

theorem save_getElem_bias (net : Network) (h2 : 2 ≤ net.numLayers)
    (hout : (outputLayerOf net).activation = some Activation.softmax)
    (k i : Nat) (hk : k < net.numConnections)
    (hi : i < (net.connections.getD k defaultConnection).bias.cols) :
    (saveNetwork net)[(1 + net.numLayers + (net.numLayers - 1)) +
        ((saveWeightLines net).length +
          ((∑ m in Finset.range k,
            (net.connections.getD m defaultConnection).bias.cols) + i))]?
      = some (Line.val
          ((net.connections.getD k defaultConnection).bias.data 0 i)) := by
  rw [save_getElem_param net h2 hout,
    List.getElem?_append_right (by omega),
    show (saveWeightLines net).length +
      ((∑ m in Finset.range k,
        (net.connections.getD m defaultConnection).bias.cols) + i) -
      (saveWeightLines net).length
      = (∑ m in Finset.range k,
          (net.connections.getD m defaultConnection).bias.cols) + i
      from by omega,
    saveBiasLines]
  have hlenb : ∀ m : Nat, ((List.range
      ((net.connections.getD m defaultConnection).bias.cols)).map
        (fun i2 => Line.val
          ((net.connections.getD m defaultConnection).bias.data 0 i2))).length
      = (net.connections.getD m defaultConnection).bias.cols := by
    intro m
    simp
  have hpre : (∑ m in Finset.range k,
      (net.connections.getD m defaultConnection).bias.cols)
      = ∑ m in Finset.range k, ((List.range
          ((net.connections.getD m defaultConnection).bias.cols)).map
            (fun i2 => Line.val
              ((net.connections.getD m defaultConnection).bias.data 0 i2))).length := by
    apply Finset.sum_congr rfl
    intro m _
    rw [hlenb m]
  rw [hpre, getElem?_flatMap_range _ _ _ _ hk (by rw [hlenb k]; exact hi)]
  exact getElem?_range_map _ _ _ hi

/-!  Round trip: the reading side. -/

def connWeightSizeSum (conns : List Connection) (k : Nat) : Nat :=
  ∑ m in Finset.range k,
    ((conns.getD m defaultConnection).weights.rows *
      (conns.getD m defaultConnection).weights.cols)

def connBiasSizeSum (conns : List Connection) (k : Nat) : Nat :=
  ∑ m in Finset.range k, (conns.getD m defaultConnection).bias.cols

theorem connWeightSizeSum_cons (c : Connection) (rest : List Connection)
    (k : Nat) :
    connWeightSizeSum (c :: rest) (k + 1)
      = c.weights.rows * c.weights.cols + connWeightSizeSum rest k := by
  rw [connWeightSizeSum, connWeightSizeSum, Finset.sum_range_succ']
  simp only [List.getD_cons_succ, List.getD_cons_zero]
  exact Nat.add_comm _ _

theorem connBiasSizeSum_cons (c : Connection) (rest : List Connection)
    (k : Nat) :
    connBiasSizeSum (c :: rest) (k + 1)
      = c.bias.cols + connBiasSizeSum rest k := by
  rw [connBiasSizeSum, connBiasSizeSum, Finset.sum_range_succ']
  simp only [List.getD_cons_succ, List.getD_cons_zero]
  exact Nat.add_comm _ _

theorem fillWeights_spec (ls : List Line) :
    ∀ (conns : List Connection) (ofs : Nat),
      (fillWeights ls ofs conns).1.length = conns.length ∧
      (fillWeights ls ofs conns).2 = ofs + connWeightSizeSum conns conns.length ∧
      ∀ k, k < conns.length →
        (fillWeights ls ofs conns).1.getD k defaultConnection
          = { conns.getD k defaultConnection with
              weights := fillMatrix ls (ofs + connWeightSizeSum conns k)
                ((conns.getD k defaultConnection).weights.rows)
                ((conns.getD k defaultConnection).weights.cols) } := by
  intro conns
  induction conns with
  | nil =>
    intro ofs
    refine ⟨rfl, ?_, fun k hk => absurd hk (by simp)⟩
    simp [fillWeights, connWeightSizeSum]
  | cons c rest ih =>
    intro ofs
    have ihs := ih (ofs + c.weights.rows * c.weights.cols)
    simp only [fillWeights]
    refine ⟨?_, ?_, ?_⟩
    · simp only [List.length_cons, ihs.1]
    · rw [ihs.2.1, List.length_cons, connWeightSizeSum_cons]
      omega
    · intro k hk
      cases k with
      | zero =>
        simp only [List.getD_cons_zero]
        rw [show connWeightSizeSum (c :: rest) 0 = 0 from by
          simp [connWeightSizeSum], Nat.add_zero]
      | succ k2 =>
        simp only [List.getD_cons_succ]
        rw [ihs.2.2 k2 (by simp only [List.length_cons] at hk; omega),
          connWeightSizeSum_cons, ← Nat.add_assoc]

theorem fillBiases_spec (ls : List Line) :
    ∀ (conns : List Connection) (ofs : Nat),
      (fillBiases ls ofs conns).1.length = conns.length ∧
      (fillBiases ls ofs conns).2 = ofs + connBiasSizeSum conns conns.length ∧
      ∀ k, k < conns.length →
        (fillBiases ls ofs conns).1.getD k defaultConnection
          = { conns.getD k defaultConnection with
              bias := fillMatrix ls (ofs + connBiasSizeSum conns k) 1
                ((conns.getD k defaultConnection).bias.cols) } := by
  intro conns
  induction conns with
  | nil =>
    intro ofs
    refine ⟨rfl, ?_, fun k hk => absurd hk (by simp)⟩
    simp [fillBiases, connBiasSizeSum]
  | cons c rest ih =>
    intro ofs
    have ihs := ih (ofs + c.bias.cols)
    simp only [fillBiases]
    refine ⟨?_, ?_, ?_⟩
    · simp only [List.length_cons, ihs.1]
    · rw [ihs.2.1, List.length_cons, connBiasSizeSum_cons]
      omega
    · intro k hk
      cases k with
      | zero =>
        simp only [List.getD_cons_zero]
        rw [show connBiasSizeSum (c :: rest) 0 = 0 from by
          simp [connBiasSizeSum], Nat.add_zero]
      | succ k2 =>
        simp only [List.getD_cons_succ]
        rw [ihs.2.2 k2 (by simp only [List.length_cons] at hk; omega),
          connBiasSizeSum_cons, ← Nat.add_assoc]

theorem valid_getD_mem (net : Network) (i : Nat) (hi : i < net.layers.length) :
    net.layers.getD i defaultLayer ∈ net.layers := by
  rw [List.getD_eq_getElem?_getD, List.getElem?_eq_getElem hi]
  simp only [Option.getD_some]
  exact List.getElem_mem hi

theorem readNumLayers_save (net : Network) :
    readNumLayers (saveNetwork net) = net.numLayers := by
  rw [readNumLayers, save_getD_zero]
  rfl

theorem readLayerSizes_save_getD (net : Network) (i : Nat)
    (hi : i < net.numLayers) :
    (readLayerSizes (saveNetwork net)).getD i 0
      = (net.layers.getD i defaultLayer).size := by
  rw [readLayerSizes, readNumLayers_save, getD_range_map, if_pos hi,
    save_getD_size net i hi]
  rfl

theorem readFuncs_save_getD_hidden (net : Network) (i : Nat)
    (hi : i < net.numLayers - 2) :
    (readFuncs (saveNetwork net)).getD i Activation.softmax
      = parseActLine (Line.name (hiddenActName
          ((net.layers.getD (1 + i) defaultLayer).activation))) := by
  rw [readFuncs, readNumLayers_save, getD_range_map, if_pos (by omega),
    save_getD_hidden net i hi]

theorem readFuncs_save_getD_last (net : Network) (h2 : 2 ≤ net.numLayers)
    (hout : (outputLayerOf net).activation = some Activation.softmax) :
    (readFuncs (saveNetwork net)).getD (net.numLayers - 2) Activation.softmax
      = Activation.softmax := by
  rw [readFuncs, readNumLayers_save, getD_range_map, if_pos (by omega),
    save_getD_funcLast net h2 hout]
  rfl

theorem parse_hidden_name (a : Activation) (ha : a ≠ Activation.softmax) :
    parseActLine (Line.name (hiddenActName (some a))) = a := by
  cases a
  · rfl
  · rfl
  · rfl
  · exact absurd rfl ha

theorem readNet0_save (net : Network) (hv : NetworkValid net)
    (hout : (outputLayerOf net).activation = some Activation.softmax) :
    readNet0 (saveNetwork net)
      = some (mkNetwork (((net.layers.getD 0 defaultLayer).size : Nat) : Int)
          ((List.range (net.numLayers - 2)).map fun i =>
            (((readLayerSizes (saveNetwork net)).getD (1 + i) 0 : Nat) : Int))
          ((List.range (net.numLayers - 2)).map fun i =>
            (readFuncs (saveNetwork net)).getD i Activation.softmax)
          (((net.layers.getD (net.numLayers - 1) defaultLayer).size : Nat) : Int)
          Activation.softmax (net.numLayers - 2)) := by
  obtain ⟨h2, hlay, hnc, hcl, hinv, hsh⟩ := hv
  have hpos : ∀ i, i < net.numLayers →
      0 < (net.layers.getD i defaultLayer).size := by
    intro i hi
    exact (hinv _ (valid_getD_mem net i (by omega))).1
  have htoNat : ((net.numLayers - 2 : Nat) : Int).toNat = net.numLayers - 2 := by
    omega
  have hszS : ∀ i, i < ((net.numLayers - 2 : Nat) : Int).toNat →
      0 < ((List.range (net.numLayers - 2)).map fun i2 =>
        (((readLayerSizes (saveNetwork net)).getD (1 + i2) 0 : Nat) : Int)).getD i 0 := by
    intro i hi
    rw [htoNat] at hi
    rw [getD_range_map, if_pos hi,
      readLayerSizes_save_getD net (1 + i) (by omega)]
    have := hpos (1 + i) (by omega)
    omega
  rw [readNet0, readNumLayers_save]
  by_cases hcase : 0 < net.numLayers - 2
  · rw [if_pos hcase,
      readLayerSizes_save_getD net 0 (by omega),
      readLayerSizes_save_getD net (net.numLayers - 1) (by omega),
      readFuncs_save_getD_last net h2 hout,
      createNetwork_eq _ _ _ _ _ _
        (by exact_mod_cast hpos 0 (by omega))
        (by positivity)
        (by exact_mod_cast hpos (net.numLayers - 1) (by omega))
        hszS,
      htoNat]
  · rw [if_neg hcase]
    have h0 : net.numLayers - 2 = 0 := by omega
    rw [h0,
      readLayerSizes_save_getD net 0 (by omega),
      readLayerSizes_save_getD net (net.numLayers - 1) (by omega)]
    rw [show (readFuncs (saveNetwork net)).getD 0 Activation.softmax
        = Activation.softmax from by
      rw [← h0]
      exact readFuncs_save_getD_last net h2 hout]
    rw [createNetwork_eq _ _ _ _ _ _
      (by exact_mod_cast hpos 0 (by omega))
      (by omega)
      (by exact_mod_cast hpos (net.numLayers - 1) (by omega))
      (by intro i hi; simp at hi)]
    simp

/-- The connection list rebuilt by readNetwork: the zero-initialized
connections of the reconstructed structure, with weights then biases
streamed in from position 1 + numLayers + (numLayers - 1). -/
def rebuiltConnections (net : Network) (MC : List Connection) : List Connection :=
  (fillBiases (saveNetwork net)
    (fillWeights (saveNetwork net)
      (1 + net.numLayers + (net.numLayers - 1)) MC).2
    (fillWeights (saveNetwork net)
      (1 + net.numLayers + (net.numLayers - 1)) MC).1).1

/-- Filling the zero-initialized connections of the rebuilt structure
from the saved stream recovers every weight and bias entry of the
original network. -/
theorem fill_roundtrip (net : Network) (h2 : 2 ≤ net.numLayers)
    (hout : (outputLayerOf net).activation = some Activation.softmax)
    (hsh : ∀ k, k < net.numConnections →
      (net.connections.getD k defaultConnection).weights.rows
          = (net.layers.getD k defaultLayer).size ∧
      (net.connections.getD k defaultConnection).weights.cols
          = (net.layers.getD (k + 1) defaultLayer).size ∧
      (net.connections.getD k defaultConnection).bias.cols
          = (net.layers.getD (k + 1) defaultLayer).size)
    (MC : List Connection) (hMClen : MC.length = net.numConnections)
    (hMCk : ∀ k, k < net.numConnections → MC.getD k defaultConnection
      = Connection.mk
          (zeroMatrix ((net.layers.getD k defaultLayer).size)
            ((net.layers.getD (k + 1) defaultLayer).size))
          (zeroMatrix 1 ((net.layers.getD (k + 1) defaultLayer).size))) :
    ∀ k, k < net.numConnections →
      ((rebuiltConnections net MC).getD k defaultConnection).weights.rows
        = (net.connections.getD k defaultConnection).weights.rows ∧
      ((rebuiltConnections net MC).getD k defaultConnection).weights.cols
        = (net.connections.getD k defaultConnection).weights.cols ∧
      (∀ i j, i < (net.connections.getD k defaultConnection).weights.rows →
        j < (net.connections.getD k defaultConnection).weights.cols →
        ((rebuiltConnections net MC).getD k defaultConnection).weights.data i j
          = (net.connections.getD k defaultConnection).weights.data i j) ∧
      ((rebuiltConnections net MC).getD k defaultConnection).bias.cols
        = (net.connections.getD k defaultConnection).bias.cols ∧
      (∀ i, i < (net.connections.getD k defaultConnection).bias.cols →
        ((rebuiltConnections net MC).getD k defaultConnection).bias.data 0 i
          = (net.connections.getD k defaultConnection).bias.data 0 i) := by
  intro k hk
  have hfw := fillWeights_spec (saveNetwork net)
    MC (1 + net.numLayers + (net.numLayers - 1))
  have hfb := fillBiases_spec (saveNetwork net)
    (fillWeights (saveNetwork net)
      (1 + net.numLayers + (net.numLayers - 1)) MC).1
    (fillWeights (saveNetwork net)
      (1 + net.numLayers + (net.numLayers - 1)) MC).2
  have hkMC : k < MC.length := by omega
  have hkFW : k < (fillWeights (saveNetwork net)
      (1 + net.numLayers + (net.numLayers - 1)) MC).1.length := by
    rw [hfw.1]
    omega
  have hWSk : ∀ q, q ≤ net.numConnections → connWeightSizeSum MC q
      = ∑ m in Finset.range q,
          ((net.connections.getD m defaultConnection).weights.rows *
            (net.connections.getD m defaultConnection).weights.cols) := by
    intro q hq
    rw [connWeightSizeSum]
    apply Finset.sum_congr rfl
    intro m hm
    have hmq : m < net.numConnections := by
      simp only [Finset.mem_range] at hm
      omega
    rw [hMCk m hmq, (hsh m hmq).1, (hsh m hmq).2.1]
    rfl
  have hfw1_bias : ∀ m, m < net.numConnections →
      ((fillWeights (saveNetwork net)
        (1 + net.numLayers + (net.numLayers - 1)) MC).1.getD m
          defaultConnection).bias
      = (MC.getD m defaultConnection).bias := by
    intro m hm
    rw [hfw.2.2 m (by omega)]
  have hBSk : ∀ q, q ≤ net.numConnections →
      connBiasSizeSum (fillWeights (saveNetwork net)
        (1 + net.numLayers + (net.numLayers - 1)) MC).1 q
      = ∑ m in Finset.range q,
          (net.connections.getD m defaultConnection).bias.cols := by
    intro q hq
    rw [connBiasSizeSum]
    apply Finset.sum_congr rfl
    intro m hm
    have hmq : m < net.numConnections := by
      simp only [Finset.mem_range] at hm
      omega
    rw [hfw1_bias m hmq, hMCk m hmq, (hsh m hmq).2.2]
    rfl
  have htot : connWeightSizeSum MC MC.length = (saveWeightLines net).length := by
    rw [hMClen, hWSk net.numConnections le_rfl, length_saveWeightLines]
  have hget := hfb.2.2 k hkFW
  rw [hfw.2.2 k hkMC, hMCk k hk] at hget
  have hrows : (net.layers.getD k defaultLayer).size
      = (net.connections.getD k defaultConnection).weights.rows :=
    (hsh k hk).1.symm
  have hcols : (net.layers.getD (k + 1) defaultLayer).size
      = (net.connections.getD k defaultConnection).weights.cols :=
    (hsh k hk).2.1.symm
  have hbcols : (net.layers.getD (k + 1) defaultLayer).size
      = (net.connections.getD k defaultConnection).bias.cols :=
    (hsh k hk).2.2.symm
  have hgoal : (rebuiltConnections net MC).getD k defaultConnection
      = (fillBiases (saveNetwork net)
          (fillWeights (saveNetwork net)
            (1 + net.numLayers + (net.numLayers - 1)) MC).2
          (fillWeights (saveNetwork net)
            (1 + net.numLayers + (net.numLayers - 1)) MC).1).1.getD k
            defaultConnection := rfl
  rw [hgoal, hget]
  dsimp only [fillMatrix, zeroMatrix]
  refine ⟨hrows, hcols, ?_, hbcols, ?_⟩
  · intro i j hi hj
    rw [hcols, hWSk k (by omega), List.get?_eq_getElem?,
      Nat.add_assoc (1 + net.numLayers + (net.numLayers - 1) +
        ∑ m in Finset.range k,
          ((net.connections.getD m defaultConnection).weights.rows *
            (net.connections.getD m defaultConnection).weights.cols))
        (i * (net.connections.getD k defaultConnection).weights.cols) j,
      Nat.add_assoc (1 + net.numLayers + (net.numLayers - 1))
        (∑ m in Finset.range k,
          ((net.connections.getD m defaultConnection).weights.rows *
            (net.connections.getD m defaultConnection).weights.cols))
        (i * (net.connections.getD k defaultConnection).weights.cols + j),
      save_getElem_weight net h2 hout k i j hk hi hj]
    rfl
  · intro i hi
    rw [Nat.zero_mul, Nat.add_zero, hfw.2.1, htot, hBSk k (by omega),
      List.get?_eq_getElem?,
      Nat.add_assoc (1 + net.numLayers + (net.numLayers - 1))
        (saveWeightLines net).length
        (∑ m in Finset.range k,
          (net.connections.getD m defaultConnection).bias.cols),
      Nat.add_assoc (1 + net.numLayers + (net.numLayers - 1))
        ((saveWeightLines net).length +
          ∑ m in Finset.range k,
            (net.connections.getD m defaultConnection).bias.cols) i,
      Nat.add_assoc (saveWeightLines net).length
        (∑ m in Finset.range k,
          (net.connections.getD m defaultConnection).bias.cols) i,
      save_getElem_bias net h2 hout k i hk hi]
    rfl

theorem mkNetwork_layers (nf : Int) (hs : List Int) (ha : List Activation)
    (nc : Int) (oa : Activation) (n : Nat) :
    (mkNetwork nf hs ha nc oa n).layers = mkLayers nf hs ha nc oa n := rfl

theorem mkNetwork_connections_length (nf : Int) (hs : List Int)
    (ha : List Activation) (nc : Int) (oa : Activation) (n : Nat) :
    (mkNetwork nf hs ha nc oa n).connections.length = 2 + n - 1 := by
  simp [mkNetwork]

/-- C1 (amended: restricted to networks whose output activation is
softmax and whose hidden activations are drawn from {sigmoid, relu,
tanH}; the counterexample shows the round trip loses a non-softmax
output activation, and C10 covers the hidden-side loss): for such a
valid network, readNetwork after saveNetwork rebuilds a network with the
same number of layers, the same layer sizes, the same hidden and output
activations, and identical weight and bias values entry for entry in
every connection. -/
theorem claim_C1 (net : Network) (hv : NetworkValid net)
    (hout : (outputLayerOf net).activation = some Activation.softmax)
    (hhid : ∀ i, 1 ≤ i → i < net.numLayers - 1 →
      (net.layers.getD i defaultLayer).activation ≠ some Activation.softmax ∧
      (net.layers.getD i defaultLayer).activation ≠ none) :
    ∃ net2, readNetwork (saveNetwork net) = some net2 ∧
      net2.numLayers = net.numLayers ∧
      net2.layers.length = net.layers.length ∧
      (∀ i, i < net.numLayers →
        (net2.layers.getD i defaultLayer).size
          = (net.layers.getD i defaultLayer).size) ∧
      (∀ i, 1 ≤ i → i < net.numLayers →
        (net2.layers.getD i defaultLayer).activation
          = (net.layers.getD i defaultLayer).activation) ∧
      net2.numConnections = net.numConnections ∧
      net2.connections.length = net.connections.length ∧
      (∀ k, k < net.numConnections →
        (net2.connections.getD k defaultConnection).weights.rows
          = (net.connections.getD k defaultConnection).weights.rows ∧
        (net2.connections.getD k defaultConnection).weights.cols
          = (net.connections.getD k defaultConnection).weights.cols ∧
        (∀ i j, i < (net.connections.getD k defaultConnection).weights.rows →
          j < (net.connections.getD k defaultConnection).weights.cols →
          (net2.connections.getD k defaultConnection).weights.data i j
            = (net.connections.getD k defaultConnection).weights.data i j) ∧
        (net2.connections.getD k defaultConnection).bias.cols
          = (net.connections.getD k defaultConnection).bias.cols ∧
        (∀ i, i < (net.connections.getD k defaultConnection).bias.cols →
          (net2.connections.getD k defaultConnection).bias.data 0 i
            = (net.connections.getD k defaultConnection).bias.data 0 i)) := by
  have hv2 := hv
  obtain ⟨h2, hlay, hnc, hcl, hinv, hsh⟩ := hv2
  have hout2 : (net.layers.getD (net.numLayers - 1) defaultLayer).activation
      = some Activation.softmax := hout
  have hL := readNumLayers_save net
  have hnet0 := readNet0_save net hv hout
  have hLeq : 2 + (net.numLayers - 2) = net.numLayers := by omega
  -- size of every layer of the rebuilt structure
  have hS : ∀ i, i < net.numLayers →
      ((mkLayers (((net.layers.getD 0 defaultLayer).size : Nat) : Int)
        ((List.range (net.numLayers - 2)).map fun i2 =>
          (((readLayerSizes (saveNetwork net)).getD (1 + i2) 0 : Nat) : Int))
        ((List.range (net.numLayers - 2)).map fun i2 =>
          (readFuncs (saveNetwork net)).getD i2 Activation.softmax)
        (((net.layers.getD (net.numLayers - 1) defaultLayer).size : Nat) : Int)
        Activation.softmax (net.numLayers - 2)).getD i defaultLayer).size
        = (net.layers.getD i defaultLayer).size := by
    intro i hi
    rw [mkLayers_getD_size _ _ _ _ _ _ _ (by omega)]
    rcases Nat.eq_zero_or_pos i with h0 | hpos
    · subst h0
      simp
    · rcases Nat.lt_or_ge i (net.numLayers - 1) with hlt | hge
      · rw [if_neg (by omega), if_neg (by omega)]
        rw [getD_range_map, if_pos (by omega),
          show 1 + (i - 1) = i from by omega,
          readLayerSizes_save_getD net i hi]
        simp
      · rw [if_neg (by omega), if_pos (by omega)]
        rw [show i = net.numLayers - 1 from by omega]
        simp
  -- activation of every hidden layer and of the output layer
  have hA : ∀ i, 1 ≤ i → i < net.numLayers →
      ((mkLayers (((net.layers.getD 0 defaultLayer).size : Nat) : Int)
        ((List.range (net.numLayers - 2)).map fun i2 =>
          (((readLayerSizes (saveNetwork net)).getD (1 + i2) 0 : Nat) : Int))
        ((List.range (net.numLayers - 2)).map fun i2 =>
          (readFuncs (saveNetwork net)).getD i2 Activation.softmax)
        (((net.layers.getD (net.numLayers - 1) defaultLayer).size : Nat) : Int)
        Activation.softmax (net.numLayers - 2)).getD i defaultLayer).activation
        = (net.layers.getD i defaultLayer).activation := by
    intro i h1 hi
    rcases Nat.lt_or_ge i (net.numLayers - 1) with hlt | hge
    · have hi1 : i - 1 < net.numLayers - 2 := by omega
      rw [show i = 1 + (i - 1) from by omega,
        mkLayers_getD_hidden _ _ _ _ _ _ _ hi1]
      rw [show (1 : Nat) + (i - 1) = i from by omega]
      show some (((List.range (net.numLayers - 2)).map fun i2 =>
        (readFuncs (saveNetwork net)).getD i2 Activation.softmax).getD (i - 1)
          Activation.softmax) = (net.layers.getD i defaultLayer).activation
      rw [getD_range_map, if_pos hi1,
        readFuncs_save_getD_hidden net (i - 1) hi1,
        show (1 : Nat) + (i - 1) = i from by omega]
      obtain ⟨hns, hnn⟩ := hhid i h1 (by omega)
      cases hact : (net.layers.getD i defaultLayer).activation with
      | none => exact absurd hact hnn
      | some a =>
        rw [parse_hidden_name a (by
          intro haeq
          rw [haeq] at hact
          exact hns hact)]
    · rw [show i = 1 + (net.numLayers - 2) from by omega, mkLayers_getD_last]
      rw [show (1 : Nat) + (net.numLayers - 2) = net.numLayers - 1 from by omega]
      rw [hout2]
      rfl
  refine ⟨_, by rw [readNetwork, hnet0, Option.map_some'], ?_, ?_, ?_, ?_, ?_, ?_, ?_⟩
  · show 2 + (net.numLayers - 2) = net.numLayers
    omega
  · show (mkLayers _ _ _ _ _ _).length = net.layers.length
    rw [mkLayers_length, hlay]
    omega
  · intro i hi
    exact hS i hi
  · intro i h1 hi
    exact hA i h1 hi
  · show 2 + (net.numLayers - 2) - 1 = net.numConnections
    omega
  · show (fillBiases (saveNetwork net) _ _).1.length = net.connections.length
    rw [(fillBiases_spec _ _ _).1, (fillWeights_spec _ _ _).1,
      mkNetwork_connections_length, hcl, hnc]
    omega
  · intro k hk
    have hMClen : (mkNetwork (((net.layers.getD 0 defaultLayer).size : Nat) : Int)
        ((List.range (net.numLayers - 2)).map fun i2 =>
          (((readLayerSizes (saveNetwork net)).getD (1 + i2) 0 : Nat) : Int))
        ((List.range (net.numLayers - 2)).map fun i2 =>
          (readFuncs (saveNetwork net)).getD i2 Activation.softmax)
        (((net.layers.getD (net.numLayers - 1) defaultLayer).size : Nat) : Int)
        Activation.softmax (net.numLayers - 2)).connections.length
          = net.numConnections := by
      rw [mkNetwork_connections_length]
      omega
    have hMCk : ∀ q, q < net.numConnections →
        (mkNetwork (((net.layers.getD 0 defaultLayer).size : Nat) : Int)
          ((List.range (net.numLayers - 2)).map fun i2 =>
            (((readLayerSizes (saveNetwork net)).getD (1 + i2) 0 : Nat) : Int))
          ((List.range (net.numLayers - 2)).map fun i2 =>
            (readFuncs (saveNetwork net)).getD i2 Activation.softmax)
          (((net.layers.getD (net.numLayers - 1) defaultLayer).size : Nat) : Int)
          Activation.softmax (net.numLayers - 2)).connections.getD q
            defaultConnection
          = Connection.mk
              (zeroMatrix ((net.layers.getD q defaultLayer).size)
                ((net.layers.getD (q + 1) defaultLayer).size))
              (zeroMatrix 1 ((net.layers.getD (q + 1) defaultLayer).size)) := by
      intro q hq
      rw [mkNetwork_connections_getD _ _ _ _ _ _ q (by omega),
        hS q (by omega), hS (q + 1) (by omega)]
    rw [hL]
    exact fill_roundtrip net h2 hout hsh
      (mkNetwork (((net.layers.getD 0 defaultLayer).size : Nat) : Int)
        ((List.range (net.numLayers - 2)).map fun i2 =>
          (((readLayerSizes (saveNetwork net)).getD (1 + i2) 0 : Nat) : Int))
        ((List.range (net.numLayers - 2)).map fun i2 =>
          (readFuncs (saveNetwork net)).getD i2 Activation.softmax)
        (((net.layers.getD (net.numLayers - 1) defaultLayer).size : Nat) : Int)
        Activation.softmax (net.numLayers - 2)).connections
      hMClen hMCk k hk

theorem claim_C1_witness :
    (NetworkValid exNetA ∧
     (outputLayerOf exNetA).activation = some Activation.softmax ∧
     (∀ i, 1 ≤ i → i < exNetA.numLayers - 1 →
       (exNetA.layers.getD i defaultLayer).activation
         ≠ some Activation.softmax ∧
       (exNetA.layers.getD i defaultLayer).activation ≠ none)) ∧
    (∃ net2, readNetwork (saveNetwork exNetA) = some net2 ∧
      net2.numLayers = exNetA.numLayers ∧
      net2.layers.length = exNetA.layers.length ∧
      (∀ i, i < exNetA.numLayers →
        (net2.layers.getD i defaultLayer).size
          = (exNetA.layers.getD i defaultLayer).size) ∧
      (∀ i, 1 ≤ i → i < exNetA.numLayers →
        (net2.layers.getD i defaultLayer).activation
          = (exNetA.layers.getD i defaultLayer).activation) ∧
      net2.numConnections = exNetA.numConnections ∧
      net2.connections.length = exNetA.connections.length ∧
      (∀ k, k < exNetA.numConnections →
        (net2.connections.getD k defaultConnection).weights.rows
          = (exNetA.connections.getD k defaultConnection).weights.rows ∧
        (net2.connections.getD k defaultConnection).weights.cols
          = (exNetA.connections.getD k defaultConnection).weights.cols ∧
        (∀ i j, i < (exNetA.connections.getD k defaultConnection).weights.rows →
          j < (exNetA.connections.getD k defaultConnection).weights.cols →
          (net2.connections.getD k defaultConnection).weights.data i j
            = (exNetA.connections.getD k defaultConnection).weights.data i j) ∧
        (net2.connections.getD k defaultConnection).bias.cols
          = (exNetA.connections.getD k defaultConnection).bias.cols ∧
        (∀ i, i < (exNetA.connections.getD k defaultConnection).bias.cols →
          (net2.connections.getD k defaultConnection).bias.data 0 i
            = (exNetA.connections.getD k defaultConnection).bias.data 0 i))) :=
  ⟨⟨by unfold NetworkValid; decide, rfl,
    fun _ h1 h2 => absurd (show _ < 1 from h2) (by omega)⟩,
    claim_C1 exNetA (by unfold NetworkValid; decide) rfl
      (fun _ h1 h2 => absurd (show _ < 1 from h2) (by omega))⟩

end Cranium
